import Mathlib

/-!
Shallow embedding of the "saber" game (2D pendulum-weapon arcade game).

Sources embedded here:
* `math.js`   — `Vec2` vector algebra, `wrapToPi`
* `geometry.js` — `windQuad`, `projectOnAxis`, `quadSegmentIntersect`
* `saber.js`  — `Ball`, `Saber`, `Bumper`, `Game` and `Game.step`

JavaScript numbers are modelled as real numbers (`ℝ`); `Math.sqrt` is
`Real.sqrt`, `Math.sin`/`Math.cos` are `Real.sin`/`Real.cos`.
`Math.random()` is modelled as an explicit stream `u : ℕ → ℝ` of draws
together with a cursor index that each consuming operation advances.
-/

open Classical

noncomputable section

/-- `Vec2` from math.js: a 2D vector with real components. -/
structure Vec2 where
  x : ℝ
  y : ℝ
deriving DecidableEq

namespace Vec2

/-- `Vec2.zero()`. -/
def zero : Vec2 := ⟨0, 0⟩

/-- `scale(s)`: componentwise scaling. -/
def scale (v : Vec2) (s : ℝ) : Vec2 := ⟨s * v.x, s * v.y⟩

/-- `negate()`. -/
def negate (v : Vec2) : Vec2 := ⟨-v.x, -v.y⟩

/-- `dot(other)`. -/
def dot (v w : Vec2) : ℝ := v.x * w.x + v.y * w.y

/-- `add(other)`. -/
def add (v w : Vec2) : Vec2 := ⟨v.x + w.x, v.y + w.y⟩

/-- `subtract(other)`. -/
def subtract (v w : Vec2) : Vec2 := ⟨v.x - w.x, v.y - w.y⟩

/-- `rotate(angle)`. -/
def rotate (v : Vec2) (angle : ℝ) : Vec2 :=
  ⟨Real.cos angle * v.x + Real.sin angle * v.y,
   -Real.sin angle * v.x + Real.cos angle * v.y⟩

/-- `orth()`: the 90° rotation `(x, y) ↦ (y, -x)`. -/
def orth (v : Vec2) : Vec2 := ⟨v.y, -v.x⟩

/-- `length()` = `Math.sqrt(this.dot(this))`. -/
def length (v : Vec2) : ℝ := Real.sqrt (v.dot v)

/-- `unit()`: scale by the reciprocal length when the length is positive,
otherwise return the vector itself. -/
def unit (v : Vec2) : Vec2 :=
  if v.length > 0 then v.scale (1 / v.length) else v

end Vec2

/-- First `while` loop of `wrapToPi`: subtract `2π` while the value exceeds `π`. -/
def wrapDown (x : ℝ) : ℝ :=
  if x > Real.pi then wrapDown (x - 2 * Real.pi) else x
termination_by (Int.ceil ((x - Real.pi) / (2 * Real.pi))).toNat
decreasing_by
  have hπ : (0:ℝ) < Real.pi := Real.pi_pos
  have harg : (x - 2 * Real.pi - Real.pi) / (2 * Real.pi)
      = (x - Real.pi) / (2 * Real.pi) - 1 := by
    field_simp
    ring
  have hpos : 0 < (x - Real.pi) / (2 * Real.pi) := by
    apply div_pos <;> linarith
  have hceil : (1:ℤ) ≤ Int.ceil ((x - Real.pi) / (2 * Real.pi)) := by
    rw [Int.le_ceil_iff]
    simpa using hpos
  have hsub : Int.ceil ((x - 2 * Real.pi - Real.pi) / (2 * Real.pi))
      = Int.ceil ((x - Real.pi) / (2 * Real.pi)) - 1 := by
    rw [harg]
    exact_mod_cast Int.ceil_sub_one _
  rw [hsub]
  omega

/-- Second `while` loop of `wrapToPi`: add `2π` while the value is below `-π`. -/
def wrapUp (x : ℝ) : ℝ :=
  if x < -Real.pi then wrapUp (x + 2 * Real.pi) else x
termination_by (Int.ceil ((-Real.pi - x) / (2 * Real.pi))).toNat
decreasing_by
  have hπ : (0:ℝ) < Real.pi := Real.pi_pos
  have harg : (-Real.pi - (x + 2 * Real.pi)) / (2 * Real.pi)
      = (-Real.pi - x) / (2 * Real.pi) - 1 := by
    field_simp
    ring
  have hpos : 0 < (-Real.pi - x) / (2 * Real.pi) := by
    apply div_pos <;> linarith
  have hceil : (1:ℤ) ≤ Int.ceil ((-Real.pi - x) / (2 * Real.pi)) := by
    rw [Int.le_ceil_iff]
    simpa using hpos
  have hsub : Int.ceil ((-Real.pi - (x + 2 * Real.pi)) / (2 * Real.pi))
      = Int.ceil ((-Real.pi - x) / (2 * Real.pi)) - 1 := by
    rw [harg]
    exact_mod_cast Int.ceil_sub_one _
  rw [hsub]
  omega

/-- `wrapToPi(x)` from math.js: the two sequential `while` loops. -/
def wrapToPi (x : ℝ) : ℝ := wrapUp (wrapDown x)

/-- `Math.min(...values)` over a nonempty array (`geometry.js` only applies it
to nonempty arrays; the `[]` case is junk). -/
def listMin : List ℝ → ℝ
  | [] => 0
  | v :: vs => vs.foldl min v

/-- `Math.max(...values)` over a nonempty array. -/
def listMax : List ℝ → ℝ
  | [] => 0
  | v :: vs => vs.foldl max v

/-- `projectOnAxis(vertices, direction, origin)` from geometry.js:
projections of all vertices onto `direction` relative to `origin`,
returned as `(min, max)`. -/
def projectOnAxis (vertices : List Vec2) (direction origin : Vec2) : ℝ × ℝ :=
  let values := vertices.map (fun v => (v.subtract origin).dot direction)
  (listMin values, listMax values)

/-- `windQuad(vertices)` from geometry.js, on a 4-element array.
(JavaScript reads exactly indices 0–3; on other lengths this model returns
the input unchanged, a case the program never exercises.) -/
def windQuad (vertices : List Vec2) : List Vec2 :=
  match vertices with
  | [v1, v2, v3, v4] =>
    let n12 := (v2.subtract v1).orth
    let d3 := n12.dot (v3.subtract v1)
    let d4 := n12.dot (v4.subtract v1)
    if d3 ≥ 0 ∧ d4 ≥ 0 then
      let n23 := (v3.subtract v2).orth
      if n23.dot (v4.subtract v2) ≥ 0 then [v1, v2, v3, v4]
      else [v1, v2, v4, v3]
    else if d3 ≤ 0 ∧ d4 ≤ 0 then
      let n13 := (v3.subtract v1).orth
      if n13.dot (v4.subtract v1) ≥ 0 then [v1, v3, v4, v2]
      else [v1, v4, v3, v2]
    else
      if d3 > d4 then [v1, v4, v2, v3]
      else [v1, v3, v2, v4]
  | l => l

/-- The outward-facing edge normal used inside `quadSegmentIntersect`:
`quad[j].subtract(quad[i]).unit().orth().negate()`. -/
def edgeNormal (quad : List Vec2) (i j : ℕ) : Vec2 :=
  (((quad.getD j Vec2.zero).subtract (quad.getD i Vec2.zero)).unit).orth.negate

/-- The first early-return condition of `quadSegmentIntersect`: the segment
has non-negligible length and its own normal separates the quad from the
inflated segment (`values[0] > radius || values[1] < -radius`). -/
def sepSegAxis (quad seg : List Vec2) (radius : ℝ) : Prop :=
  let s := (seg.getD 1 Vec2.zero).subtract (seg.getD 0 Vec2.zero)
  let values := projectOnAxis quad (s.unit.orth) (seg.getD 0 Vec2.zero)
  s.length > 1 / 1000 ∧ (values.1 > radius ∨ values.2 < -radius)

/-- The per-edge early-return condition of `quadSegmentIntersect`: the
outward normal of quad edge `i → j` separates (`values[0] > radius`). -/
def sepEdgeAxis (quad seg : List Vec2) (radius : ℝ) (i j : ℕ) : Prop :=
  (projectOnAxis seg (edgeNormal quad i j) (quad.getD i Vec2.zero)).1 > radius

/-- `quadSegmentIntersect(quad, seg, radius)` from geometry.js: the
separating-axis test.  The JavaScript loop over the 3 leading quad edges plus
the closing edge is unrolled into the four explicit edge checks; the
early-return conditions are the named predicates above. -/
def quadSegmentIntersect (quad seg : List Vec2) (radius : ℝ) : Bool :=
  if sepSegAxis quad seg radius then false
  else if sepEdgeAxis quad seg radius 0 1 then false
  else if sepEdgeAxis quad seg radius 1 2 then false
  else if sepEdgeAxis quad seg radius 2 3 then false
  else if sepEdgeAxis quad seg radius 3 0 then false
  else true

/-!  Semantic geometry predicates (the mathematical meaning the spec claims
for the code above; these are not transliterations of code). -/

/-- Membership in the closed segment from `a` to `b`. -/
def onSegment (a b p : Vec2) : Prop :=
  ∃ t : ℝ, 0 ≤ t ∧ t ≤ 1 ∧ p = a.add ((b.subtract a).scale t)

/-- Membership in the convex hull of the four vertices of a quad
(given as a 4-element list). -/
def inQuadHull (quad : List Vec2) (p : Vec2) : Prop :=
  ∃ t1 t2 t3 t4 : ℝ, 0 ≤ t1 ∧ 0 ≤ t2 ∧ 0 ≤ t3 ∧ 0 ≤ t4 ∧
    t1 + t2 + t3 + t4 = 1 ∧
    p.x = t1 * (quad.getD 0 Vec2.zero).x + t2 * (quad.getD 1 Vec2.zero).x
        + t3 * (quad.getD 2 Vec2.zero).x + t4 * (quad.getD 3 Vec2.zero).x ∧
    p.y = t1 * (quad.getD 0 Vec2.zero).y + t2 * (quad.getD 1 Vec2.zero).y
        + t3 * (quad.getD 2 Vec2.zero).y + t4 * (quad.getD 3 Vec2.zero).y

/-- The quad (as a filled convex region) and the segment inflated by `radius`
(the capsule) share a common point: some hull point is within `radius` of
some segment point. -/
def capsuleMeetsQuad (quad seg : List Vec2) (radius : ℝ) : Prop :=
  ∃ p q : Vec2, inQuadHull quad p ∧
    onSegment (seg.getD 0 Vec2.zero) (seg.getD 1 Vec2.zero) q ∧
    (p.subtract q).length ≤ radius

/-- The winding property `quadSegmentIntersect` relies on: every vertex of the
quad lies on the non-positive side of every edge's outward normal (the normal
computed by the code itself).  `windQuad` establishes this for convex inputs. -/
def wellWound (quad : List Vec2) : Prop :=
  ∀ i j : ℕ, (i, j) ∈ [(0, 1), (1, 2), (2, 3), (3, 0)] →
    ∀ v ∈ quad, (v.subtract (quad.getD i Vec2.zero)).dot (edgeNormal quad i j) ≤ 0

/-- Twice the signed area of the triangle `p q r`. -/
def area3 (p q r : Vec2) : ℝ :=
  (q.x - p.x) * (r.y - p.y) - (q.y - p.y) * (r.x - p.x)

/-- Two closed segments share at least one point. -/
def segMeet (a b c d : Vec2) : Prop := ∃ p : Vec2, onSegment a b p ∧ onSegment c d p

/-- The closed 4-cycle `a → b → c → d → a` is a simple (non-self-intersecting)
polygon: opposite edges are disjoint, and adjacent edges meet only in their
shared vertex. -/
def properQuad (a b c d : Vec2) : Prop :=
  ¬ segMeet a b c d ∧ ¬ segMeet b c d a ∧
  (∀ p : Vec2, onSegment a b p → onSegment b c p → p = b) ∧
  (∀ p : Vec2, onSegment b c p → onSegment c d p → p = c) ∧
  (∀ p : Vec2, onSegment c d p → onSegment d a p → p = d) ∧
  (∀ p : Vec2, onSegment d a p → onSegment a b p → p = a)

/-- `properQuad` applied to the four entries of a list. -/
def properQuadL (l : List Vec2) : Prop :=
  properQuad (l.getD 0 Vec2.zero) (l.getD 1 Vec2.zero) (l.getD 2 Vec2.zero) (l.getD 3 Vec2.zero)

/-!  Constants from saber.js. -/

def TIMESTEP : ℝ := 1 / 60
def GRAVITY : ℝ := 500
def MAX_LIVES : ℤ := 3
def NEW_LIFE_EVERY_N_POINTS : ℕ := 10
def SABER_DRAG : ℝ := 2
def ANG_VEL_MAX : ℝ := Real.pi / (2 * TIMESTEP)
def SABER_HURT_TIME : ℝ := 1
def MAX_NUM_BALLS : ℕ := 10
def NEW_BALL_EVERY_N_POINTS : ℕ := 10
def RADIUS : ℝ := 10
def BALL_DYING_TIME : ℝ := 1 / 10
def BALL_DRAG : ℝ := 1 / 1000
def DAMAGE_SPEED : ℝ := 1000

/-- The mutable per-ball state of saber.js's `Ball` class.
`health` is an integer counter (decremented by collisions). -/
structure Ball where
  radius : ℝ
  xMax : ℝ
  yMax : ℝ
  screenCenter : Vec2
  enabled : Bool
  dying : Bool
  dyingTime : ℝ
  health : ℤ
  inCollision : Bool
  pos : Vec2
  lastPos : Vec2
  vel : Vec2

/-- Junk ball used as the `getD` default for list indexing (JavaScript array
reads in `Game.step` are always in range; this value is never observed). -/
def dBall : Ball :=
  { radius := 0, xMax := 0, yMax := 0, screenCenter := Vec2.zero,
    enabled := false, dying := false, dyingTime := 0, health := 3,
    inCollision := false, pos := Vec2.zero, lastPos := Vec2.zero, vel := Vec2.zero }

/-- The candidate position drawn by iteration `i` of the `do … while` loop in
`Ball.respawn`, with draws taken from the stream `u` starting at cursor `k`. -/
def respawnSample (b : Ball) (u : ℕ → ℝ) (k : ℕ) (i : ℕ) : Vec2 :=
  ⟨RADIUS + u (k + 2 * i) * (b.xMax - 2 * RADIUS),
   RADIUS + u (k + 2 * i + 1) * (b.yMax * (1 / 2))⟩

/-- The `do … while` exit condition of `Ball.respawn` at iteration `i`:
the sampled position is NOT within `xMax / 3` of the screen center. -/
def respawnAccept (b : Ball) (u : ℕ → ℝ) (k : ℕ) (i : ℕ) : Prop :=
  ¬ ((respawnSample b u k i).subtract b.screenCenter).length < b.xMax / 3

/-- The iteration at which the respawn loop exits: the first accepted sample.
(When no sample is ever accepted the JavaScript loop diverges; this model
returns the junk index 0 in that case, which no theorem relies on.) -/
def respawnExit (b : Ball) (u : ℕ → ℝ) (k : ℕ) : ℕ :=
  if h : ∃ i, respawnAccept b u k i then Nat.find h else 0

/-- `Ball.respawn()` from saber.js: reset the dying state and health, sample a
position until it is far enough from the screen center, and draw a fresh
random velocity.  Returns the new ball together with the advanced cursor. -/
def Ball.respawn (b : Ball) (u : ℕ → ℝ) (k : ℕ) : Ball × ℕ :=
  let i := respawnExit b u k
  let p := respawnSample b u k i
  ({ b with
      dying := false, dyingTime := 0, health := 3, inCollision := false,
      pos := p, lastPos := p,
      vel := ⟨2000 * (u (k + 2 * i + 2) - 1 / 2), 2000 * (u (k + 2 * i + 3) - 1 / 2)⟩ },
   k + 2 * i + 4)

/-- saber.js `Bumper`: static wedge with outward unit normal. -/
structure Bumper where
  normal : Vec2
  orth : Vec2
  vertices : List Vec2
  origin : Vec2

/-- The `Bumper` constructor. -/
def mkBumper (normal : Vec2) (vertices : List Vec2) : Bumper :=
  let n := normal.unit
  { normal := n, orth := n.orth, vertices := vertices,
    origin := vertices.getD 0 Vec2.zero }

/-- The bumper `for` loop inside `Ball.collide`: resolve against the first
penetrating bumper only (`break` after the first hit). -/
def collideBumpers (b : Ball) : List Bumper → Ball
  | [] => b
  | bumper :: rest =>
    let delta := b.pos.subtract bumper.origin
    let d := delta.dot bumper.normal + b.radius
    if d > 0 then
      let pos := b.pos.subtract (bumper.normal.scale d)
      if b.vel.dot bumper.normal > 0 then
        let vn := bumper.normal.scale (b.vel.dot bumper.normal)
        let vu := bumper.orth.scale (b.vel.dot bumper.orth)
        { b with pos := pos, vel := vn.negate.add vu }
      else { b with pos := pos }
    else collideBumpers b rest

/-- `Ball.collide(bumpers)` from saber.js: bumper resolution, then the
left/right/top wall clamps, then the bottom fall-through respawn. -/
def Ball.collide (b : Ball) (bumpers : List Bumper) (u : ℕ → ℝ) (k : ℕ) : Ball × ℕ :=
  if ¬ b.enabled ∨ b.dying then (b, k) else
  let b1 := collideBumpers b bumpers
  let b2 :=
    if b1.pos.x < b1.radius then
      { b1 with pos := ⟨b1.radius, b1.pos.y⟩,
                vel := if b1.vel.x < 0 then ⟨-b1.vel.x, b1.vel.y⟩ else b1.vel }
    else if b1.pos.x > b1.xMax - b1.radius then
      { b1 with pos := ⟨b1.xMax - b1.radius, b1.pos.y⟩,
                vel := if b1.vel.x > 0 then ⟨-b1.vel.x, b1.vel.y⟩ else b1.vel }
    else b1
  if b2.pos.y < b2.radius then
    ({ b2 with pos := ⟨b2.pos.x, b2.radius⟩,
               vel := if b2.vel.y < 0 then ⟨b2.vel.x, -b2.vel.y⟩ else b2.vel }, k)
  else if b2.pos.y > b2.yMax + b2.radius then
    b2.respawn u k
  else (b2, k)

/-- `Ball.updateVelocity(dt)`: quadratic drag (×10 while dying) plus gravity. -/
def Ball.updateVelocity (b : Ball) (dt : ℝ) : Ball :=
  if ¬ b.enabled then b else
  let c := if b.dying then BALL_DRAG * 10 else BALL_DRAG
  let drag := b.vel.scale (b.vel.length * c)
  let acc := (Vec2.mk 0 GRAVITY).subtract drag
  { b with vel := b.vel.add (acc.scale dt) }

/-- `Ball.updatePosition(dt)`: advance the dying timer (respawning when it
expires) and integrate the position. -/
def Ball.updatePosition (b : Ball) (dt : ℝ) (u : ℕ → ℝ) (k : ℕ) : Ball × ℕ :=
  if ¬ b.enabled then (b, k) else
  let bk :=
    if b.dying then
      let b' := { b with dyingTime := b.dyingTime + dt }
      if b'.dyingTime > BALL_DYING_TIME then b'.respawn u k else (b', k)
    else (b, k)
  let b1 := bk.1
  ({ b1 with lastPos := b1.pos, pos := b1.pos.add (b1.vel.scale dt) }, bk.2)

/-- `Ball.computeSweptRegion(dt)`: the segment from the current position to
the position predicted one step ahead. -/
def Ball.computeSweptRegion (b : Ball) (dt : ℝ) : List Vec2 :=
  [b.pos, b.pos.add (b.vel.scale dt)]

/-- saber.js `Saber`: hilt state plus blade angle state.
(`acc` is set by the constructor and never read afterwards, as in the code.) -/
structure Saber where
  length : ℝ
  pos : Vec2
  vel : Vec2
  acc : Vec2
  angle : ℝ
  angVel : ℝ
  grab : Bool
  pvs : Option (List Vec2)
  hurt : Bool
  hurtTime : ℝ

/-- `computeSaberPoint(position, angle, length)` from saber.js. -/
def computeSaberPoint (position : Vec2) (angle len : ℝ) : Vec2 :=
  ⟨position.x - len * Real.sin angle, position.y - len * Real.cos angle⟩

/-- `Saber.computeEndPosition()`. -/
def Saber.computeEndPosition (s : Saber) : Vec2 :=
  computeSaberPoint s.pos s.angle s.length

/-- `computeVelocityAlongSaber(baseVel, angle, angVel, length)` from saber.js:
rigid-body velocity of the blade point at distance `len` from the hilt. -/
def computeVelocityAlongSaber (baseVel : Vec2) (angle angVel len : ℝ) : Vec2 :=
  let x := -len * Real.sin angle
  let y := -len * Real.cos angle
  let r := Vec2.mk y (-x)
  baseVel.add (r.scale angVel)

/-- `Saber.updateVelocity(target, dt)`: finite-difference hilt velocity and
acceleration, pendulum angular dynamics (unless grabbed), angular-velocity
clamp. -/
def Saber.updateVelocity (s : Saber) (target : Vec2) (dt : ℝ) : Saber :=
  let newVel := (target.subtract s.pos).scale (1 / dt)
  let acc := (newVel.subtract s.vel).scale (1 / dt)
  let angVel1 :=
    if ¬ s.grab then
      let angAcc := (acc.x * Real.cos s.angle + (GRAVITY - acc.y) * Real.sin s.angle)
          / s.length - SABER_DRAG * s.angVel
      s.angVel + dt * angAcc
    else 0
  let angVel2 :=
    if angVel1 > ANG_VEL_MAX then ANG_VEL_MAX
    else if angVel1 < -ANG_VEL_MAX then -ANG_VEL_MAX
    else angVel1
  { s with vel := newVel, angVel := angVel2 }

/-- `Saber.updatePosition(target, dt)`: snap the hilt to the target, advance
and wrap the angle, run the hurt cooldown timer. -/
def Saber.updatePosition (s : Saber) (target : Vec2) (dt : ℝ) : Saber :=
  let s1 := { s with pos := target, angle := wrapToPi (s.angle + dt * s.angVel) }
  if s1.hurt then
    let t := s1.hurtTime + dt
    if t > SABER_HURT_TIME then { s1 with hurt := false, hurtTime := 0 }
    else { s1 with hurtTime := t }
  else s1

/-- `Saber.computeSweptRegion(target, dt)`: the wound swept quadrilateral of
the blade over the step, plus the unit sweep direction of the blade midline.
Returns the updated saber (its `pvs` field) alongside the pair the code
returns. -/
def Saber.computeSweptRegion (s : Saber) (target : Vec2) (dt : ℝ) :
    Saber × (List Vec2 × Vec2) :=
  let pv1 := s.pos
  let pv2 := target
  let pv3 := s.computeEndPosition
  let pv4 := computeSaberPoint target (s.angle + dt * s.angVel) s.length
  let start := (pv1.add pv2).scale (1 / 2)
  let stop := (pv3.add pv4).scale (1 / 2)
  let pvs := windQuad [pv1, pv2, pv3, pv4]
  ({ s with pvs := some pvs }, (pvs, (stop.subtract start).unit))

/-- The part of the `Game` state read and written by the per-ball collision
resolution callback in `Game.step` (the balls array and the session fields,
plus the saber's `hurt` flag which the callback may set). -/
structure ResState where
  balls : List Ball
  hurt : Bool
  lives : ℤ
  done : Bool
  score : ℕ
  numBalls : ℕ

/-- The contact normal chosen in `Game.step`: `u.orth()`, flipped so that it
points from the saber toward the ball. -/
def contactNormal (uv sPos bPos : Vec2) : Vec2 :=
  if (bPos.subtract sPos).dot uv.orth < 0 then uv.orth.negate else uv.orth

/-- The body of the `this.balls.forEach(ball => …)` callback in `Game.step`,
acting on ball index `i`.  `sab` supplies the saber fields the callback reads
(`pos`, `vel`, `angle`, `angVel`); `pvs`/`uv` are the swept quad and sweep
direction; early `return`s in the code become early results here. -/
def resolveOne (freeplay : Bool) (sab : Saber) (pvs : List Vec2) (uv : Vec2)
    (dt : ℝ) (st : ResState) (i : ℕ) : ResState :=
  let b := st.balls.getD i dBall
  if ¬ b.enabled ∨ b.dying then st else
  let hitHilt := ¬ freeplay ∧ ¬ st.hurt ∧ (sab.pos.subtract b.pos).length < 2 * RADIUS
  if hitHilt ∧ st.lives - 1 ≤ 0 then
    { st with hurt := true, lives := st.lives - 1, done := true }
  else
  let st1 := if hitHilt then { st with hurt := true, lives := st.lives - 1 } else st
  let bvs := b.computeSweptRegion dt
  let intersect := quadSegmentIntersect pvs bvs b.radius
  if intersect then
    let dist := (b.pos.subtract sab.pos).dot uv
    let vp := computeVelocityAlongSaber sab.vel sab.angle sab.angVel dist
    let n := contactNormal uv sab.pos b.pos
    let vpn := n.dot vp
    let vbn := n.dot b.vel
    let hitSpeed := |vpn - vbn|
    if ¬ b.inCollision ∧ hitSpeed ≥ DAMAGE_SPEED ∧ b.health - 1 ≤ 0 then
      -- the ball dies: score, dying flag, score-driven unlocks, early return
      -- (no velocity response and no `inCollision` update on this path)
      let b1 := { b with health := b.health - 1, dying := true }
      let score1 := st1.score + 1
      let balls1 := st1.balls.set i b1
      let en := score1 % NEW_BALL_EVERY_N_POINTS = 0 ∧ st1.numBalls < MAX_NUM_BALLS
      let balls2 :=
        if en then balls1.set st1.numBalls { (balls1.getD st1.numBalls dBall) with enabled := true }
        else balls1
      let numBalls1 := if en then st1.numBalls + 1 else st1.numBalls
      let lives1 :=
        if score1 % NEW_LIFE_EVERY_N_POINTS = 0 then min (st1.lives + 1) MAX_LIVES
        else st1.lives
      { st1 with balls := balls2, score := score1, numBalls := numBalls1, lives := lives1 }
    else
      let b1 :=
        if ¬ b.inCollision ∧ hitSpeed ≥ DAMAGE_SPEED then { b with health := b.health - 1 }
        else b
      let b2 :=
        if vbn < vpn then
          let vu := uv.scale (uv.dot b.vel)
          let vn := n.scale (max vpn (-vbn))
          { b1 with vel := vu.add vn }
        else b1
      { st1 with balls := st1.balls.set i { b2 with inCollision := true } }
  else
    { st1 with balls := st1.balls.set i { b with inCollision := false } }

/-- The whole `Game` state of saber.js. -/
structure GameState where
  width : ℝ
  height : ℝ
  saber : Saber
  balls : List Ball
  bumpers : List Bumper
  numBalls : ℕ
  score : ℕ
  lives : ℤ
  started : Bool
  done : Bool
  freeplay : Bool

/-- Phase 2 of `Game.step`: `collide` then `updateVelocity` for each ball in
array order, threading the random cursor. -/
def ballsPhase2 (bumpers : List Bumper) (dt : ℝ) (u : ℕ → ℝ) :
    List Ball → ℕ → List Ball × ℕ
  | [], k => ([], k)
  | b :: rest, k =>
    let bk := b.collide bumpers u k
    let b2 := bk.1.updateVelocity dt
    let rk := ballsPhase2 bumpers dt u rest bk.2
    (b2 :: rk.1, rk.2)

/-- Final phase of `Game.step`: `updatePosition` for each ball in array
order, threading the random cursor. -/
def ballsPhase5 (dt : ℝ) (u : ℕ → ℝ) : List Ball → ℕ → List Ball × ℕ
  | [], k => ([], k)
  | b :: rest, k =>
    let bk := b.updatePosition dt u k
    let rk := ballsPhase5 dt u rest bk.2
    (bk.1 :: rk.1, rk.2)

/-- `Game.step(target, dt)` from saber.js.  `u`/`k` model the `Math.random`
stream and its cursor; the returned cursor accounts for every draw consumed
by respawns during the step. -/
def Game.step (g : GameState) (target : Vec2) (dt : ℝ) (u : ℕ → ℝ) (k : ℕ) :
    GameState × ℕ :=
  if ¬ g.started ∨ g.done then (g, k) else
  let s1 := g.saber.updateVelocity target dt
  let p2 := ballsPhase2 g.bumpers dt u g.balls k
  let sw := s1.computeSweptRegion target dt
  let s2 := sw.1
  let pvs := sw.2.1
  let uv := sw.2.2
  let st0 : ResState :=
    { balls := p2.1, hurt := s2.hurt, lives := g.lives, done := g.done,
      score := g.score, numBalls := g.numBalls }
  let st1 := (List.range p2.1.length).foldl (resolveOne g.freeplay s2 pvs uv dt) st0
  let s3 := ({ s2 with hurt := st1.hurt } : Saber).updatePosition target dt
  let p5 := ballsPhase5 dt u st1.balls p2.2
  ({ g with saber := s3, balls := p5.1, numBalls := st1.numBalls,
            score := st1.score, lives := st1.lives, done := st1.done }, p5.2)

/-- The `Ball` constructor: build the structure, `respawn()`, then overwrite
the velocity with zero (as the code does after calling `respawn`). -/
def mkBall (radius xMax yMax : ℝ) (u : ℕ → ℝ) (k : ℕ) : Ball × ℕ :=
  let base : Ball :=
    { radius := radius, xMax := xMax, yMax := yMax,
      screenCenter := ⟨xMax / 2, yMax / 2⟩, enabled := true,
      dying := false, dyingTime := 0, health := 3, inCollision := false,
      pos := Vec2.zero, lastPos := Vec2.zero, vel := Vec2.zero }
  let bk := base.respawn u k
  ({ bk.1 with vel := Vec2.zero }, bk.2)

/-- The ball-construction loop of the `Game` constructor: `MAX_NUM_BALLS`
balls, disabling those with index ≥ `numBalls`.  Each loop iteration first
draws the (unused) `x`, `y` constructor arguments, consuming two draws. -/
def mkBalls (width height : ℝ) (numBalls : ℕ) (u : ℕ → ℝ) :
    ℕ → ℕ → ℕ → List Ball × ℕ
  | 0, _, k => ([], k)
  | n + 1, i, k =>
    let bk := mkBall RADIUS width height u (k + 2)
    let b := if i ≥ numBalls then { bk.1 with enabled := false } else bk.1
    let rk := mkBalls width height numBalls u n (i + 1) bk.2
    (b :: rk.1, rk.2)

/-- The `Game` constructor from saber.js. -/
def initGame (width height : ℝ) (u : ℕ → ℝ) (k : ℕ) : GameState × ℕ :=
  let saberLength := if width < 500 then (1 / 4 : ℝ) * width else (175 / 1000 : ℝ) * width
  let saber : Saber :=
    { length := saberLength, pos := ⟨(1 / 2) * width, (1 / 2) * height⟩,
      vel := Vec2.zero, acc := Vec2.zero, angle := 0, angVel := 0,
      grab := false, pvs := none, hurt := false, hurtTime := 0 }
  let numBalls := 1
  let bk := mkBalls width height numBalls u MAX_NUM_BALLS 0 k
  let bw := (4 / 10 : ℝ) * width
  let bh := (15 / 100 : ℝ) * height
  let bumpVert1 : List Vec2 := [⟨0, height - bh⟩, ⟨0, height⟩, ⟨bw, height⟩]
  let bumpVert2 : List Vec2 := [⟨width - bw, height⟩, ⟨width, height⟩, ⟨width, height - bh⟩]
  ({ width := width, height := height, saber := saber, balls := bk.1,
     bumpers := [mkBumper ⟨-bh, bw⟩ bumpVert1, mkBumper ⟨bh, bw⟩ bumpVert2],
     numBalls := numBalls, score := 0, lives := MAX_LIVES,
     started := false, done := false, freeplay := false }, bk.2)

/-- States reachable from a freshly constructed game by any sequence of
steps, with arbitrary targets, time steps and random draws. -/
inductive Reachable : GameState → Prop
  | init (width height : ℝ) (u : ℕ → ℝ) (k : ℕ) :
      Reachable (initGame width height u k).1
  | step (g : GameState) (target : Vec2) (dt : ℝ) (u : ℕ → ℝ) (k : ℕ) :
      Reachable g → Reachable (Game.step g target dt u k).1

/-!  Concrete fixtures used by counterexamples and witnesses below. -/

/-- A ball in a 100 × 100 arena (fields as `Ball`'s constructor would set
them before respawning). -/
def counterBall : Ball :=
  { radius := 10, xMax := 100, yMax := 100, screenCenter := ⟨50, 50⟩,
    enabled := true, dying := false, dyingTime := 0, health := 3,
    inCollision := false, pos := Vec2.zero, lastPos := Vec2.zero, vel := Vec2.zero }

/-- A draw stream whose first two draws are `1/10` and `74/75` (all draws lie
in `[0, 1)`). -/
def counterDraws : ℕ → ℝ :=
  fun n => if n = 0 then 1 / 10 else if n = 1 then 74 / 75 else 0

/-- The spec scenario's saber: hilt at `(100, 100)`, blade straight up
(angle 0), length 100, hilt at rest, spinning at 20 rad/s. -/
def damageSaber : Saber :=
  { length := 100, pos := ⟨100, 100⟩, vel := ⟨0, 0⟩, acc := ⟨0, 0⟩,
    angle := 0, angVel := 20, grab := false, pvs := none,
    hurt := false, hurtTime := 0 }

/-- A one-health ball at `(100, 50)` falling at 300 units/s, about to cross
the blade. -/
def damageBall : Ball :=
  { radius := 10, xMax := 600, yMax := 600, screenCenter := ⟨300, 300⟩,
    enabled := true, dying := false, dyingTime := 0, health := 1,
    inCollision := false, pos := ⟨100, 50⟩, lastPos := ⟨100, 50⟩, vel := ⟨0, -300⟩ }

/-- Resolution-phase state holding just `damageBall`. -/
def damageState : ResState :=
  { balls := [damageBall], hurt := false, lives := 3, done := false,
    score := 0, numBalls := 1 }

/-- The health invariant of C9: health between 0 and 3, and health 0 only on
a dying ball. -/
def ballInv (b : Ball) : Prop :=
  0 ≤ b.health ∧ b.health ≤ 3 ∧ (b.health = 0 → b.dying = true)

/-!  ## Basic vector lemmas -/

lemma sqrt_eval {c a : ℝ} (hc : 0 ≤ c) (h : c * c = a) : Real.sqrt a = c := by
  rw [← h, Real.sqrt_mul_self hc]

lemma dot_self_nonneg (v : Vec2) : 0 ≤ v.dot v := by
  simp only [Vec2.dot]
  nlinarith [sq_nonneg v.x, sq_nonneg v.y]

lemma length_nonneg (v : Vec2) : 0 ≤ v.length := Real.sqrt_nonneg _

lemma length_sq (v : Vec2) : v.length * v.length = v.dot v := by
  simpa [Vec2.length] using Real.mul_self_sqrt (dot_self_nonneg v)

lemma dot_sq_le (a b : Vec2) : (a.dot b) * (a.dot b) ≤ (a.dot a) * (b.dot b) := by
  simp only [Vec2.dot]
  nlinarith [sq_nonneg (a.x * b.y - a.y * b.x)]

lemma orth_dot_self (v : Vec2) : v.orth.dot v = 0 := by
  simp only [Vec2.orth, Vec2.dot]
  ring

lemma orth_dot_orth (a b : Vec2) : a.orth.dot b.orth = a.dot b := by
  simp only [Vec2.orth, Vec2.dot]
  ring

lemma unit_orth_dot_base (s : Vec2) : (s.unit.orth).dot s = 0 := by
  simp only [Vec2.unit]
  split
  · simp only [Vec2.scale, Vec2.orth, Vec2.dot]
    ring
  · exact orth_dot_self s

lemma unit_dot_self_le_one (v : Vec2) : v.unit.dot v.unit ≤ 1 := by
  simp only [Vec2.unit]
  split
  · rename_i h
    have hd : 0 < v.dot v := by
      by_contra hc
      have h0 : v.dot v = 0 := le_antisymm (not_lt.mp hc) (dot_self_nonneg v)
      simp [Vec2.length, h0] at h
    have hs : Real.sqrt (v.dot v) * Real.sqrt (v.dot v) = v.dot v :=
      Real.mul_self_sqrt (le_of_lt hd)
    simp only [Vec2.scale, Vec2.dot, Vec2.length] at *
    have : (1 / Real.sqrt (v.x * v.x + v.y * v.y)) * (1 / Real.sqrt (v.x * v.x + v.y * v.y))
        * (v.x * v.x + v.y * v.y) = 1 := by
      rw [div_mul_div_comm, one_mul]
      rw [show Real.sqrt (v.x * v.x + v.y * v.y) * Real.sqrt (v.x * v.x + v.y * v.y)
          = v.x * v.x + v.y * v.y from hs]
      field_simp
    nlinarith [this]
  · rename_i h
    have h' : v.length ≤ 0 := not_lt.mp h
    have h0 : v.length = 0 := le_antisymm h' (length_nonneg v)
    have hd : v.dot v = 0 := by
      have := length_sq v
      rw [h0] at this
      linarith
    rw [hd]
    norm_num

lemma qsi_true_iff (quad seg : List Vec2) (r : ℝ) :
    quadSegmentIntersect quad seg r = true ↔
      ¬ sepSegAxis quad seg r ∧ ¬ sepEdgeAxis quad seg r 0 1 ∧
      ¬ sepEdgeAxis quad seg r 1 2 ∧ ¬ sepEdgeAxis quad seg r 2 3 ∧
      ¬ sepEdgeAxis quad seg r 3 0 := by
  unfold quadSegmentIntersect
  split_ifs with h1 h2 h3 h4 h5
  · exact iff_of_false (by simp) (by tauto)
  · exact iff_of_false (by simp) (by tauto)
  · exact iff_of_false (by simp) (by tauto)
  · exact iff_of_false (by simp) (by tauto)
  · exact iff_of_false (by simp) (by tauto)
  · exact iff_of_true rfl ⟨h1, h2, h3, h4, h5⟩

lemma length_eval {a b c : ℝ} (hc : 0 ≤ c) (h : c * c = a * a + b * b) :
    (Vec2.mk a b).length = c := by
  simp only [Vec2.length, Vec2.dot]
  exact sqrt_eval hc h

lemma unit_eval {a b c : ℝ} (hc : 0 < c) (h : c * c = a * a + b * b) :
    (Vec2.mk a b).unit = ⟨a / c, b / c⟩ := by
  have hl : (Vec2.mk a b).length = c := length_eval (le_of_lt hc) h
  simp only [Vec2.unit, hl, if_pos hc, Vec2.scale]
  congr 1 <;> ring

lemma unit_zero_vec : (Vec2.mk 0 0).unit = ⟨0, 0⟩ := by
  have hl : (Vec2.mk 0 0).length = 0 := length_eval le_rfl (by norm_num)
  simp only [Vec2.unit, hl]
  rw [if_neg (lt_irrefl 0)]

/-!  ## C10 — `Vec2.unit` never divides by zero -/

/-- C10: `Vec2.unit` never divides by zero: a vector of length 0 (necessarily
the zero vector) is returned unchanged, and a vector of positive length is
scaled by the reciprocal of its length; the scaling branch is taken only when
the length is positive. -/
theorem unit_no_div_zero (v : Vec2) :
    (v.length = 0 → v.unit = v ∧ v = Vec2.zero) ∧
    (0 < v.length → v.unit = v.scale (1 / v.length)) := by
  constructor
  · intro h
    constructor
    · simp only [Vec2.unit]
      rw [if_neg]
      rw [h]
      exact lt_irrefl 0
    · have hd : v.dot v = 0 := by
        have := length_sq v
        rw [h] at this
        linarith
      simp only [Vec2.dot] at hd
      have hx : v.x = 0 := by nlinarith [sq_nonneg v.x, sq_nonneg v.y]
      have hy : v.y = 0 := by nlinarith [sq_nonneg v.x, sq_nonneg v.y]
      cases v
      simp_all [Vec2.zero]
  · intro h
    simp only [Vec2.unit, if_pos h]

/-- Witness for C10: the zero vector is returned unchanged, and `(3, 4)`
(length 5) is scaled by `1/5`. -/
theorem unit_no_div_zero_witness :
    Vec2.zero.unit = Vec2.zero ∧ (Vec2.mk 3 4).unit = (Vec2.mk 3 4).scale (1 / 5) := by
  have hz : Vec2.zero.length = 0 := by
    simp [Vec2.length, Vec2.zero, Vec2.dot]
  have h5 : (Vec2.mk 3 4).length = 5 := by
    simp only [Vec2.length, Vec2.dot]
    exact sqrt_eval (by norm_num) (by norm_num)
  constructor
  · exact ((unit_no_div_zero Vec2.zero).1 hz).1
  · have := (unit_no_div_zero (Vec2.mk 3 4)).2 (by rw [h5]; norm_num)
    rw [h5] at this
    exact this

/-!  ## C7 — range of `wrapToPi` and of the stored saber angle -/

lemma wrapDown_le (x : ℝ) : wrapDown x ≤ Real.pi := by
  induction x using wrapDown.induct with
  | case1 x h ih =>
    rw [wrapDown, if_pos h]
    exact ih
  | case2 x h =>
    rw [wrapDown, if_neg h]
    linarith [not_lt.mp h]

lemma wrapDown_sub (x : ℝ) : ∃ m : ℤ, wrapDown x = x - 2 * Real.pi * m := by
  induction x using wrapDown.induct with
  | case1 x h ih =>
    obtain ⟨m, hm⟩ := ih
    refine ⟨m + 1, ?_⟩
    rw [wrapDown, if_pos h, hm]
    push_cast
    ring
  | case2 x h =>
    refine ⟨0, ?_⟩
    rw [wrapDown, if_neg h]
    push_cast
    ring

lemma wrapUp_ge (x : ℝ) : -Real.pi ≤ wrapUp x := by
  induction x using wrapUp.induct with
  | case1 x h ih =>
    rw [wrapUp, if_pos h]
    exact ih
  | case2 x h =>
    rw [wrapUp, if_neg h]
    linarith [not_lt.mp h]

lemma wrapUp_le (x : ℝ) (hx : x ≤ Real.pi) : wrapUp x ≤ Real.pi := by
  induction x using wrapUp.induct with
  | case1 x h ih =>
    rw [wrapUp, if_pos h]
    exact ih (by linarith [Real.pi_pos])
  | case2 x h =>
    rw [wrapUp, if_neg h]
    exact hx

lemma wrapUp_add (x : ℝ) : ∃ m : ℤ, wrapUp x = x + 2 * Real.pi * m := by
  induction x using wrapUp.induct with
  | case1 x h ih =>
    obtain ⟨m, hm⟩ := ih
    refine ⟨m + 1, ?_⟩
    rw [wrapUp, if_pos h, hm]
    push_cast
    ring
  | case2 x h =>
    refine ⟨0, ?_⟩
    rw [wrapUp, if_neg h]
    push_cast
    ring

lemma wrapToPi_mem_Icc (x : ℝ) : wrapToPi x ∈ Set.Icc (-Real.pi) Real.pi :=
  ⟨wrapUp_ge _, wrapUp_le _ (wrapDown_le x)⟩

lemma wrapToPi_eq_add_int_mul (x : ℝ) : ∃ k : ℤ, wrapToPi x = x + 2 * Real.pi * k := by
  obtain ⟨m, hm⟩ := wrapDown_sub x
  obtain ⟨m', hm'⟩ := wrapUp_add (wrapDown x)
  refine ⟨m' - m, ?_⟩
  rw [wrapToPi, hm', hm]
  push_cast
  ring

lemma updatePosition_angle (s : Saber) (target : Vec2) (dt : ℝ) :
    (s.updatePosition target dt).angle = wrapToPi (s.angle + dt * s.angVel) := by
  simp only [Saber.updatePosition]
  split
  · split <;> rfl
  · rfl

/-- Counterexample for C7: `wrapToPi (-π)` is `-π` itself, which does not lie
in the half-open interval `(-π, π]` the claim asserts. -/
theorem wrapToPi_not_Ioc :
    wrapToPi (-Real.pi) = -Real.pi ∧ wrapToPi (-Real.pi) ∉ Set.Ioc (-Real.pi) Real.pi := by
  have hπ := Real.pi_pos
  have h1 : wrapDown (-Real.pi) = -Real.pi := by
    rw [wrapDown, if_neg]
    linarith
  have h2 : wrapToPi (-Real.pi) = -Real.pi := by
    rw [wrapToPi, h1, wrapUp, if_neg]
    exact lt_irrefl _
  refine ⟨h2, ?_⟩
  rw [h2]
  intro hmem
  exact lt_irrefl _ hmem.1

/-- C7 (amended): `wrapToPi` lands in the closed interval `[-π, π]` (the
endpoint `-π` is attainable, so the half-open interval of the claim is wrong),
it differs from its input by an integer multiple of `2π`, and consequently the
blade angle stored by `Saber.updatePosition` always lies in `[-π, π]`. -/
theorem wrapToPi_range (x : ℝ) (s : Saber) (target : Vec2) (dt : ℝ) :
    wrapToPi x ∈ Set.Icc (-Real.pi) Real.pi ∧
    (∃ k : ℤ, wrapToPi x = x + 2 * Real.pi * k) ∧
    (s.updatePosition target dt).angle ∈ Set.Icc (-Real.pi) Real.pi := by
  refine ⟨wrapToPi_mem_Icc x, wrapToPi_eq_add_int_mul x, ?_⟩
  rw [updatePosition_angle]
  exact wrapToPi_mem_Icc _

/-!  ## C2 — the spec's concrete saber/ball scenario -/

/-- The swept quad of the stationary vertical blade of the scenario:
hilt at `(100, 100)`, blade tip at `(100, 0)`. -/
lemma windQuad_scenario :
    windQuad [⟨100, 100⟩, ⟨100, 100⟩, ⟨100, 0⟩, ⟨100, 0⟩] =
      ([⟨100, 100⟩, ⟨100, 100⟩, ⟨100, 0⟩, ⟨100, 0⟩] : List Vec2) := by
  unfold windQuad
  norm_num [Vec2.subtract, Vec2.orth, Vec2.dot]

lemma qsi_scenario_true :
    quadSegmentIntersect [⟨100, 100⟩, ⟨100, 100⟩, ⟨100, 0⟩, ⟨100, 0⟩]
      [⟨100, 50⟩, ⟨100, 45⟩] 10 = true := by
  have eu : (Vec2.mk 0 (-5)).unit = ⟨0, -1⟩ := by
    have := unit_eval (a := 0) (b := -5) (c := 5) (by norm_num) (by norm_num)
    rw [this]
    norm_num
  have el : (Vec2.mk 0 (-5)).length = 5 := length_eval (by norm_num) (by norm_num)
  have eu2 : (Vec2.mk 0 (-100)).unit = ⟨0, -1⟩ := by
    have := unit_eval (a := 0) (b := -100) (c := 100) (by norm_num) (by norm_num)
    rw [this]
    norm_num
  have eu3 : (Vec2.mk 0 100).unit = ⟨0, 1⟩ := by
    have := unit_eval (a := 0) (b := 100) (c := 100) (by norm_num) (by norm_num)
    rw [this]
    norm_num
  have eu0 : (Vec2.mk 0 0).unit = ⟨0, 0⟩ := unit_zero_vec
  rw [qsi_true_iff]
  refine ⟨?_, ?_, ?_, ?_, ?_⟩
  · unfold sepSegAxis
    norm_num [projectOnAxis, listMin, listMax, Vec2.subtract, Vec2.dot, Vec2.orth, eu, el]
  · unfold sepEdgeAxis edgeNormal
    norm_num [projectOnAxis, listMin, Vec2.subtract, Vec2.dot, Vec2.orth, Vec2.negate, eu0]
  · unfold sepEdgeAxis edgeNormal
    norm_num [projectOnAxis, listMin, Vec2.subtract, Vec2.dot, Vec2.orth, Vec2.negate, eu2]
  · unfold sepEdgeAxis edgeNormal
    norm_num [projectOnAxis, listMin, Vec2.subtract, Vec2.dot, Vec2.orth, Vec2.negate, eu0]
  · unfold sepEdgeAxis edgeNormal
    norm_num [projectOnAxis, listMin, Vec2.subtract, Vec2.dot, Vec2.orth, Vec2.negate, eu3]

lemma qsi_scenario_false :
    quadSegmentIntersect [⟨100, 100⟩, ⟨100, 100⟩, ⟨100, 0⟩, ⟨100, 0⟩]
      [⟨300, 50⟩, ⟨300, 45⟩] 10 = false := by
  have eu : (Vec2.mk 0 (-5)).unit = ⟨0, -1⟩ := by
    have := unit_eval (a := 0) (b := -5) (c := 5) (by norm_num) (by norm_num)
    rw [this]
    norm_num
  have el : (Vec2.mk 0 (-5)).length = 5 := length_eval (by norm_num) (by norm_num)
  have hsep : sepSegAxis [⟨100, 100⟩, ⟨100, 100⟩, ⟨100, 0⟩, ⟨100, 0⟩]
      [⟨300, 50⟩, ⟨300, 45⟩] 10 := by
    unfold sepSegAxis
    norm_num [projectOnAxis, listMin, listMax, Vec2.subtract, Vec2.dot, Vec2.orth, eu, el]
  unfold quadSegmentIntersect
  rw [if_pos hsep]

/-- C2: in the spec's concrete scenario (hilt at `(100,100)`, blade angle 0,
blade length 100, swept quad wound from `{(100,100),(100,100),(100,0),(100,0)}`),
the ball segment `(100,50)–(100,45)` with radius 10 intersects, and the same
segment moved to `x = 300` does not. -/
theorem quadSegmentIntersect_scenario :
    quadSegmentIntersect (windQuad [⟨100, 100⟩, ⟨100, 100⟩, ⟨100, 0⟩, ⟨100, 0⟩])
      [⟨100, 50⟩, ⟨100, 45⟩] 10 = true ∧
    quadSegmentIntersect (windQuad [⟨100, 100⟩, ⟨100, 100⟩, ⟨100, 0⟩, ⟨100, 0⟩])
      [⟨300, 50⟩, ⟨300, 45⟩] 10 = false := by
  rw [windQuad_scenario]
  exact ⟨qsi_scenario_true, qsi_scenario_false⟩

/-!  ## C5 — monotonicity in the radius -/

/-- C5: for a fixed quad and segment, `quadSegmentIntersect` is monotonically
non-decreasing in the radius: a positive answer stays positive for every
larger radius. -/
theorem quadSegmentIntersect_radius_mono (quad seg : List Vec2) (r r' : ℝ)
    (hr : r ≤ r') (h : quadSegmentIntersect quad seg r = true) :
    quadSegmentIntersect quad seg r' = true := by
  rw [qsi_true_iff] at h ⊢
  obtain ⟨h1, h2, h3, h4, h5⟩ := h
  refine ⟨?_, ?_, ?_, ?_, ?_⟩
  · intro hc
    obtain ⟨ha, hb⟩ := hc
    refine h1 ⟨ha, ?_⟩
    rcases hb with hb | hb
    · exact Or.inl (by linarith)
    · exact Or.inr (by linarith)
  · intro hc
    exact h2 (by unfold sepEdgeAxis at hc ⊢; linarith)
  · intro hc
    exact h3 (by unfold sepEdgeAxis at hc ⊢; linarith)
  · intro hc
    exact h4 (by unfold sepEdgeAxis at hc ⊢; linarith)
  · intro hc
    exact h5 (by unfold sepEdgeAxis at hc ⊢; linarith)

/-- Witness for C5 at the concrete scenario quad and segment, radii 10 ≤ 20. -/
theorem quadSegmentIntersect_radius_mono_witness :
    quadSegmentIntersect [⟨100, 100⟩, ⟨100, 100⟩, ⟨100, 0⟩, ⟨100, 0⟩]
      [⟨100, 50⟩, ⟨100, 45⟩] 20 = true :=
  quadSegmentIntersect_radius_mono _ _ 10 20 (by norm_num) qsi_scenario_true

/-!  ## C1 — what `quadSegmentIntersect` actually decides -/

lemma negate_dot_negate (v w : Vec2) : v.negate.dot w.negate = v.dot w := by
  simp only [Vec2.negate, Vec2.dot]
  ring

lemma dot_sub_split (q p base n : Vec2) :
    (q.subtract base).dot n - (p.subtract base).dot n = (q.subtract p).dot n := by
  simp only [Vec2.subtract, Vec2.dot]
  ring

/-- If `n` has norm at most one, `p` is on the non-positive side of the
hyperplane through `base` with normal `n`, `q` is strictly beyond offset `r`,
then `p` and `q` are more than `r` apart: the core separation argument. -/
lemma sep_general (base n p q : Vec2) (r : ℝ) (hr : 0 ≤ r)
    (hn : n.dot n ≤ 1)
    (hp : (p.subtract base).dot n ≤ 0)
    (hq : r < (q.subtract base).dot n)
    (hd : (p.subtract q).dot (p.subtract q) ≤ r * r) : False := by
  have hsplit := dot_sub_split q p base n
  have hcs := dot_sq_le (q.subtract p) n
  have hqp : (q.subtract p).dot (q.subtract p) = (p.subtract q).dot (p.subtract q) := by
    simp only [Vec2.subtract, Vec2.dot]
    ring
  have hgt : r < (q.subtract p).dot n := by
    have : (q.subtract p).dot n = (q.subtract base).dot n - (p.subtract base).dot n :=
      (dot_sub_split q p base n).symm
    linarith
  nlinarith [hcs, hqp, hgt, hd, hn, dot_self_nonneg (q.subtract p)]

lemma hull_coords (a b c d p : Vec2) (hp : inQuadHull [a, b, c, d] p) :
    ∃ t1 t2 t3 t4 : ℝ, 0 ≤ t1 ∧ 0 ≤ t2 ∧ 0 ≤ t3 ∧ 0 ≤ t4 ∧
      t1 + t2 + t3 + t4 = 1 ∧
      p.x = t1 * a.x + t2 * b.x + t3 * c.x + t4 * d.x ∧
      p.y = t1 * a.y + t2 * b.y + t3 * c.y + t4 * d.y := by
  obtain ⟨t1, t2, t3, t4, h1, h2, h3, h4, hsum, hx, hy⟩ := hp
  simp only [List.getD] at hx hy
  exact ⟨t1, t2, t3, t4, h1, h2, h3, h4, hsum, hx, hy⟩

lemma hull_dot_eq (a b c d base n p : Vec2) {t1 t2 t3 t4 : ℝ}
    (hsum : t1 + t2 + t3 + t4 = 1)
    (hx : p.x = t1 * a.x + t2 * b.x + t3 * c.x + t4 * d.x)
    (hy : p.y = t1 * a.y + t2 * b.y + t3 * c.y + t4 * d.y) :
    (p.subtract base).dot n
      = t1 * ((a.subtract base).dot n) + t2 * ((b.subtract base).dot n)
      + t3 * ((c.subtract base).dot n) + t4 * ((d.subtract base).dot n) := by
  simp only [Vec2.subtract, Vec2.dot]
  linear_combination n.x * hx + n.y * hy + (base.x * n.x + base.y * n.y) * hsum

lemma hull_dot_ge_min (a b c d base n p : Vec2) (hp : inQuadHull [a, b, c, d] p) :
    min (min (min ((a.subtract base).dot n) ((b.subtract base).dot n))
      ((c.subtract base).dot n)) ((d.subtract base).dot n) ≤ (p.subtract base).dot n := by
  obtain ⟨t1, t2, t3, t4, h1, h2, h3, h4, hsum, hx, hy⟩ := hull_coords a b c d p hp
  have key := hull_dot_eq a b c d base n p hsum hx hy
  set fa := (a.subtract base).dot n
  set fb := (b.subtract base).dot n
  set fc := (c.subtract base).dot n
  set fd := (d.subtract base).dot n
  set m := min (min (min fa fb) fc) fd with hm
  have hma : m ≤ fa := le_trans (min_le_left _ _) (le_trans (min_le_left _ _) (min_le_left _ _))
  have hmb : m ≤ fb := le_trans (min_le_left _ _) (le_trans (min_le_left _ _) (min_le_right _ _))
  have hmc : m ≤ fc := le_trans (min_le_left _ _) (min_le_right _ _)
  have hmd : m ≤ fd := min_le_right _ _
  have hsm : t1 * m + t2 * m + t3 * m + t4 * m = m := by linear_combination m * hsum
  linarith [mul_le_mul_of_nonneg_left hma h1, mul_le_mul_of_nonneg_left hmb h2,
    mul_le_mul_of_nonneg_left hmc h3, mul_le_mul_of_nonneg_left hmd h4]

lemma hull_dot_le_max (a b c d base n p : Vec2) (hp : inQuadHull [a, b, c, d] p) :
    (p.subtract base).dot n ≤
      max (max (max ((a.subtract base).dot n) ((b.subtract base).dot n))
        ((c.subtract base).dot n)) ((d.subtract base).dot n) := by
  obtain ⟨t1, t2, t3, t4, h1, h2, h3, h4, hsum, hx, hy⟩ := hull_coords a b c d p hp
  have key := hull_dot_eq a b c d base n p hsum hx hy
  set fa := (a.subtract base).dot n
  set fb := (b.subtract base).dot n
  set fc := (c.subtract base).dot n
  set fd := (d.subtract base).dot n
  set m := max (max (max fa fb) fc) fd with hm
  have hma : fa ≤ m := le_trans (le_trans (le_max_left _ _) (le_max_left _ _)) (le_max_left _ _)
  have hmb : fb ≤ m := le_trans (le_trans (le_max_right _ _) (le_max_left _ _)) (le_max_left _ _)
  have hmc : fc ≤ m := le_trans (le_max_right _ _) (le_max_left _ _)
  have hmd : fd ≤ m := le_max_right _ _
  have hsm : t1 * m + t2 * m + t3 * m + t4 * m = m := by linear_combination m * hsum
  linarith [mul_le_mul_of_nonneg_left hma h1, mul_le_mul_of_nonneg_left hmb h2,
    mul_le_mul_of_nonneg_left hmc h3, mul_le_mul_of_nonneg_left hmd h4]

lemma seg_dot_ge_min (s0 s1 base n q : Vec2) (hq : onSegment s0 s1 q) :
    min ((s0.subtract base).dot n) ((s1.subtract base).dot n) ≤ (q.subtract base).dot n := by
  obtain ⟨t, ht0, ht1, hqe⟩ := hq
  have key : (q.subtract base).dot n
      = (1 - t) * ((s0.subtract base).dot n) + t * ((s1.subtract base).dot n) := by
    rw [hqe]
    simp only [Vec2.subtract, Vec2.dot, Vec2.add, Vec2.scale]
    ring
  set f0 := (s0.subtract base).dot n
  set f1 := (s1.subtract base).dot n
  have h0 : min f0 f1 ≤ f0 := min_le_left _ _
  have h1 : min f0 f1 ≤ f1 := min_le_right _ _
  nlinarith [mul_le_mul_of_nonneg_left h0 (by linarith : (0:ℝ) ≤ 1 - t),
    mul_le_mul_of_nonneg_left h1 ht0]

lemma dot_comm (v w : Vec2) : v.dot w = w.dot v := by
  simp only [Vec2.dot]
  ring

lemma dot_negate_right (v w : Vec2) : v.dot w.negate = -(v.dot w) := by
  simp only [Vec2.dot, Vec2.negate]
  ring

lemma scale_dot (v : Vec2) (t : ℝ) (w : Vec2) : (v.scale t).dot w = t * (v.dot w) := by
  simp only [Vec2.dot, Vec2.scale]
  ring

lemma edgeNormal_sq_le_one (quad : List Vec2) (i j : ℕ) :
    (edgeNormal quad i j).dot (edgeNormal quad i j) ≤ 1 := by
  unfold edgeNormal
  rw [negate_dot_negate, orth_dot_orth]
  exact unit_dot_self_le_one _

lemma segNormal_sq_le_one (s : Vec2) : (s.unit.orth).dot (s.unit.orth) ≤ 1 := by
  rw [orth_dot_orth]
  exact unit_dot_self_le_one _

lemma seg_point_dot_segNormal (s0 s1 q : Vec2) (hq : onSegment s0 s1 q) :
    (q.subtract s0).dot ((s1.subtract s0).unit.orth) = 0 := by
  obtain ⟨t, _, _, hqe⟩ := hq
  have hsub : q.subtract s0 = (s1.subtract s0).scale t := by
    rw [hqe]
    simp only [Vec2.subtract, Vec2.add, Vec2.scale]
    congr 1 <;> ring
  rw [hsub, scale_dot, dot_comm, unit_orth_dot_base]
  ring

/-- C1 (amended): `quadSegmentIntersect` is a conservative overlap test.  For
a quad whose vertices all lie on the non-positive side of each edge's outward
normal (the winding `windQuad` produces for convex configurations) and a
non-negative radius, whenever the quad and the radius-`r` capsule around the
segment share a common point the function returns `true`.  The converse is
false: see the counterexample theorem. -/
theorem quadSegmentIntersect_complete (a b c d s0 s1 : Vec2) (r : ℝ)
    (hw : wellWound [a, b, c, d]) (hr : 0 ≤ r)
    (hm : capsuleMeetsQuad [a, b, c, d] [s0, s1] r) :
    quadSegmentIntersect [a, b, c, d] [s0, s1] r = true := by
  obtain ⟨p, q, hp, hq, hd⟩ := hm
  simp only [List.getD_cons_zero, List.getD_cons_succ] at hq
  have hdot1 : (p.subtract q).dot (p.subtract q) ≤ r * r := by
    nlinarith [length_sq (p.subtract q), length_nonneg (p.subtract q)]
  have hdot2 : (q.subtract p).dot (q.subtract p) ≤ r * r := by
    have : (q.subtract p).dot (q.subtract p) = (p.subtract q).dot (p.subtract q) := by
      simp only [Vec2.subtract, Vec2.dot]
      ring
    linarith
  rw [qsi_true_iff]
  refine ⟨?_, ?_, ?_, ?_, ?_⟩
  · -- the segment's own normal cannot separate
    intro hc
    unfold sepSegAxis at hc
    simp only [List.getD_cons_zero, List.getD_cons_succ, projectOnAxis, List.map,
      listMin, listMax, List.foldl] at hc
    set s := s1.subtract s0 with hs
    set n := s.unit.orth with hn
    have hnn : n.dot n ≤ 1 := segNormal_sq_le_one s
    have hq0 : (q.subtract s0).dot n = 0 := seg_point_dot_segNormal s0 s1 q hq
    rcases hc.2 with hcmin | hcmax
    · have hmin := hull_dot_ge_min a b c d s0 n p hp
      exact sep_general s0 n q p r hr hnn (le_of_eq hq0) (lt_of_lt_of_le hcmin hmin) hdot2
    · have hmax := hull_dot_le_max a b c d s0 n.negate p hp
      have hnn' : n.negate.dot n.negate ≤ 1 := by rw [negate_dot_negate]; exact hnn
      have hq0' : (q.subtract s0).dot n.negate ≤ 0 := by rw [dot_negate_right, hq0]; norm_num
      have hfp : r < (p.subtract s0).dot n.negate := by
        have e1 : (p.subtract s0).dot n.negate = -((p.subtract s0).dot n) := dot_negate_right _ _
        have e2 : (a.subtract s0).dot n.negate = -((a.subtract s0).dot n) := dot_negate_right _ _
        have e3 : (b.subtract s0).dot n.negate = -((b.subtract s0).dot n) := dot_negate_right _ _
        have e4 : (c.subtract s0).dot n.negate = -((c.subtract s0).dot n) := dot_negate_right _ _
        have e5 : (d.subtract s0).dot n.negate = -((d.subtract s0).dot n) := dot_negate_right _ _
        have hle := hull_dot_le_max a b c d s0 n p hp
        have : (p.subtract s0).dot n < -r := lt_of_le_of_lt hle hcmax
        rw [e1]
        linarith
      exact sep_general s0 n.negate q p r hr hnn' hq0' hfp hdot2
  · -- edge 0 → 1
    intro hc
    unfold sepEdgeAxis at hc
    simp only [List.getD_cons_zero, List.getD_cons_succ, projectOnAxis, List.map,
      listMin, List.foldl] at hc
    set n := edgeNormal [a, b, c, d] 0 1 with hn
    have hhull : (p.subtract a).dot n ≤ 0 := by
      have hmax := hull_dot_le_max a b c d a n p hp
      have h1 := hw 0 1 (by simp) a (by simp)
      have h2 := hw 0 1 (by simp) b (by simp)
      have h3 := hw 0 1 (by simp) c (by simp)
      have h4 := hw 0 1 (by simp) d (by simp)
      simp only [List.getD_cons_zero, List.getD_cons_succ] at h1 h2 h3 h4
      refine le_trans hmax ?_
      simp only [max_le_iff]
      exact ⟨⟨⟨h1, h2⟩, h3⟩, h4⟩
    have hqgt : r < (q.subtract a).dot n := by
      have := seg_dot_ge_min s0 s1 a n q hq
      exact lt_of_lt_of_le hc this
    exact sep_general a n p q r hr (edgeNormal_sq_le_one _ _ _) hhull hqgt hdot1
  · -- edge 1 → 2
    intro hc
    unfold sepEdgeAxis at hc
    simp only [List.getD_cons_zero, List.getD_cons_succ, projectOnAxis, List.map,
      listMin, List.foldl] at hc
    set n := edgeNormal [a, b, c, d] 1 2 with hn
    have hhull : (p.subtract b).dot n ≤ 0 := by
      have hmax := hull_dot_le_max a b c d b n p hp
      have h1 := hw 1 2 (by simp) a (by simp)
      have h2 := hw 1 2 (by simp) b (by simp)
      have h3 := hw 1 2 (by simp) c (by simp)
      have h4 := hw 1 2 (by simp) d (by simp)
      simp only [List.getD_cons_zero, List.getD_cons_succ] at h1 h2 h3 h4
      refine le_trans hmax ?_
      simp only [max_le_iff]
      exact ⟨⟨⟨h1, h2⟩, h3⟩, h4⟩
    have hqgt : r < (q.subtract b).dot n := by
      have := seg_dot_ge_min s0 s1 b n q hq
      exact lt_of_lt_of_le hc this
    exact sep_general b n p q r hr (edgeNormal_sq_le_one _ _ _) hhull hqgt hdot1
  · -- edge 2 → 3
    intro hc
    unfold sepEdgeAxis at hc
    simp only [List.getD_cons_zero, List.getD_cons_succ, projectOnAxis, List.map,
      listMin, List.foldl] at hc
    set n := edgeNormal [a, b, c, d] 2 3 with hn
    have hhull : (p.subtract c).dot n ≤ 0 := by
      have hmax := hull_dot_le_max a b c d c n p hp
      have h1 := hw 2 3 (by simp) a (by simp)
      have h2 := hw 2 3 (by simp) b (by simp)
      have h3 := hw 2 3 (by simp) c (by simp)
      have h4 := hw 2 3 (by simp) d (by simp)
      simp only [List.getD_cons_zero, List.getD_cons_succ] at h1 h2 h3 h4
      refine le_trans hmax ?_
      simp only [max_le_iff]
      exact ⟨⟨⟨h1, h2⟩, h3⟩, h4⟩
    have hqgt : r < (q.subtract c).dot n := by
      have := seg_dot_ge_min s0 s1 c n q hq
      exact lt_of_lt_of_le hc this
    exact sep_general c n p q r hr (edgeNormal_sq_le_one _ _ _) hhull hqgt hdot1
  · -- closing edge 3 → 0
    intro hc
    unfold sepEdgeAxis at hc
    simp only [List.getD_cons_zero, List.getD_cons_succ, projectOnAxis, List.map,
      listMin, List.foldl] at hc
    set n := edgeNormal [a, b, c, d] 3 0 with hn
    have hhull : (p.subtract d).dot n ≤ 0 := by
      have hmax := hull_dot_le_max a b c d d n p hp
      have h1 := hw 3 0 (by simp) a (by simp)
      have h2 := hw 3 0 (by simp) b (by simp)
      have h3 := hw 3 0 (by simp) c (by simp)
      have h4 := hw 3 0 (by simp) d (by simp)
      simp only [List.getD_cons_zero, List.getD_cons_succ] at h1 h2 h3 h4
      refine le_trans hmax ?_
      simp only [max_le_iff]
      exact ⟨⟨⟨h1, h2⟩, h3⟩, h4⟩
    have hqgt : r < (q.subtract d).dot n := by
      have := seg_dot_ge_min s0 s1 d n q hq
      exact lt_of_lt_of_le hc this
    exact sep_general d n p q r hr (edgeNormal_sq_le_one _ _ _) hhull hqgt hdot1

/-- Counterexample for C1: the axis-aligned square `[0,100]²` (a fixed point
of `windQuad`, hence a legitimately wound quad) and the degenerate segment at
`(108,108)` inflated by radius 10 do NOT share a common point (the nearest
square point `(100,100)` is `√128 > 10` away), yet `quadSegmentIntersect`
returns `true`: the 5 tested axes miss the corner direction, so the test is
not an exact overlap test. -/
theorem quadSegmentIntersect_not_exact :
    windQuad [⟨0, 0⟩, ⟨0, 100⟩, ⟨100, 100⟩, ⟨100, 0⟩] =
      ([⟨0, 0⟩, ⟨0, 100⟩, ⟨100, 100⟩, ⟨100, 0⟩] : List Vec2) ∧
    quadSegmentIntersect [⟨0, 0⟩, ⟨0, 100⟩, ⟨100, 100⟩, ⟨100, 0⟩]
      [⟨108, 108⟩, ⟨108, 108⟩] 10 = true ∧
    ¬ capsuleMeetsQuad [⟨0, 0⟩, ⟨0, 100⟩, ⟨100, 100⟩, ⟨100, 0⟩]
      [⟨108, 108⟩, ⟨108, 108⟩] 10 := by
  have eu01 : (Vec2.mk 0 100).unit = ⟨0, 1⟩ := by
    have := unit_eval (a := 0) (b := 100) (c := 100) (by norm_num) (by norm_num)
    rw [this]
    norm_num
  have eu10 : (Vec2.mk 100 0).unit = ⟨1, 0⟩ := by
    have := unit_eval (a := 100) (b := 0) (c := 100) (by norm_num) (by norm_num)
    rw [this]
    norm_num
  have eum1 : (Vec2.mk 0 (-100)).unit = ⟨0, -1⟩ := by
    have := unit_eval (a := 0) (b := -100) (c := 100) (by norm_num) (by norm_num)
    rw [this]
    norm_num
  have eum2 : (Vec2.mk (-100) 0).unit = ⟨-1, 0⟩ := by
    have := unit_eval (a := -100) (b := 0) (c := 100) (by norm_num) (by norm_num)
    rw [this]
    norm_num
  have el0 : (Vec2.mk 0 0).length = 0 := length_eval le_rfl (by norm_num)
  refine ⟨?_, ?_, ?_⟩
  · unfold windQuad
    norm_num [Vec2.subtract, Vec2.orth, Vec2.dot]
  · rw [qsi_true_iff]
    refine ⟨?_, ?_, ?_, ?_, ?_⟩
    · unfold sepSegAxis
      norm_num [Vec2.subtract, el0]
    · unfold sepEdgeAxis edgeNormal
      norm_num [projectOnAxis, listMin, Vec2.subtract, Vec2.dot, Vec2.orth, Vec2.negate, eu01]
    · unfold sepEdgeAxis edgeNormal
      norm_num [projectOnAxis, listMin, Vec2.subtract, Vec2.dot, Vec2.orth, Vec2.negate, eu10]
    · unfold sepEdgeAxis edgeNormal
      norm_num [projectOnAxis, listMin, Vec2.subtract, Vec2.dot, Vec2.orth, Vec2.negate, eum1]
    · unfold sepEdgeAxis edgeNormal
      norm_num [projectOnAxis, listMin, Vec2.subtract, Vec2.dot, Vec2.orth, Vec2.negate, eum2]
  · rintro ⟨p, q, hp, hq, hd⟩
    obtain ⟨t1, t2, t3, t4, h1, h2, h3, h4, hsum, hx, hy⟩ :=
      hull_coords ⟨0, 0⟩ ⟨0, 100⟩ ⟨100, 100⟩ ⟨100, 0⟩ p hp
    simp only [List.getD_cons_zero, List.getD_cons_succ] at hq
    obtain ⟨t, ht0, ht1, hqe⟩ := hq
    have hqx : q.x = 108 := by
      rw [hqe]
      simp [Vec2.add, Vec2.scale, Vec2.subtract]
    have hqy : q.y = 108 := by
      rw [hqe]
      simp [Vec2.add, Vec2.scale, Vec2.subtract]
    have hpx : p.x ≤ 100 := by
      simp only at hx
      nlinarith
    have hpy : p.y ≤ 100 := by
      simp only at hy
      nlinarith
    have hdot : (p.subtract q).dot (p.subtract q) ≤ 10 * 10 := by
      nlinarith [length_sq (p.subtract q), length_nonneg (p.subtract q)]
    simp only [Vec2.subtract, Vec2.dot] at hdot
    rw [hqx, hqy] at hdot
    nlinarith [sq_nonneg (p.x - 108), sq_nonneg (p.y - 108)]

/-- Witness for the amended C1: the scenario quad is well wound, the point
`(100, 50)` lies in its hull and on the ball segment, so the theorem yields
`true` for the overlapping configuration. -/
theorem quadSegmentIntersect_complete_witness :
    quadSegmentIntersect [⟨100, 100⟩, ⟨100, 100⟩, ⟨100, 0⟩, ⟨100, 0⟩]
      [⟨100, 50⟩, ⟨100, 45⟩] 10 = true := by
  have eu2 : (Vec2.mk 0 (-100)).unit = ⟨0, -1⟩ := by
    have := unit_eval (a := 0) (b := -100) (c := 100) (by norm_num) (by norm_num)
    rw [this]
    norm_num
  have eu3 : (Vec2.mk 0 100).unit = ⟨0, 1⟩ := by
    have := unit_eval (a := 0) (b := 100) (c := 100) (by norm_num) (by norm_num)
    rw [this]
    norm_num
  have eu0 : (Vec2.mk 0 0).unit = ⟨0, 0⟩ := unit_zero_vec
  refine quadSegmentIntersect_complete _ _ _ _ _ _ 10 ?_ (by norm_num) ?_
  · intro i j hij v hv
    fin_cases hij <;> fin_cases hv <;>
      norm_num [edgeNormal, Vec2.subtract, Vec2.dot, Vec2.orth, Vec2.negate, eu0, eu2, eu3]
  · refine ⟨⟨100, 50⟩, ⟨100, 50⟩, ?_, ?_, ?_⟩
    · exact ⟨1 / 2, 0, 1 / 2, 0, by norm_num, by norm_num, by norm_num, by norm_num,
        by norm_num, by norm_num [List.getD], by norm_num [List.getD]⟩
    · refine ⟨0, le_rfl, by norm_num, ?_⟩
      simp [List.getD, Vec2.add, Vec2.scale, Vec2.subtract]
    · have : (Vec2.mk 100 50).subtract ⟨100, 50⟩ = ⟨0, 0⟩ := by
        simp [Vec2.subtract]
      rw [this, length_eval le_rfl (by norm_num)]
      norm_num

/-!  ## C4 — does `windQuad` always produce a simple polygon? -/

lemma add_scale_zero (a b : Vec2) : a.add ((b.subtract a).scale 0) = a := by
  cases a
  simp [Vec2.add, Vec2.scale, Vec2.subtract]

lemma onSeg_dot_combo (a b base n p : Vec2) (h : onSegment a b p) :
    ∃ t : ℝ, 0 ≤ t ∧ t ≤ 1 ∧ p = a.add ((b.subtract a).scale t) ∧
      (p.subtract base).dot n
        = (1 - t) * ((a.subtract base).dot n) + t * ((b.subtract base).dot n) := by
  obtain ⟨t, ht0, ht1, hpe⟩ := h
  refine ⟨t, ht0, ht1, hpe, ?_⟩
  rw [hpe]
  simp only [Vec2.subtract, Vec2.dot, Vec2.add, Vec2.scale]
  ring

lemma seg_dot_le_max (s0 s1 base n q : Vec2) (hq : onSegment s0 s1 q) :
    (q.subtract base).dot n ≤ max ((s0.subtract base).dot n) ((s1.subtract base).dot n) := by
  obtain ⟨t, ht0, ht1, _, key⟩ := onSeg_dot_combo s0 s1 base n q hq
  set f0 := (s0.subtract base).dot n
  set f1 := (s1.subtract base).dot n
  have h0 : f0 ≤ max f0 f1 := le_max_left _ _
  have h1 : f1 ≤ max f0 f1 := le_max_right _ _
  nlinarith [mul_le_mul_of_nonneg_left h0 (by linarith : (0:ℝ) ≤ 1 - t),
    mul_le_mul_of_nonneg_left h1 ht0]

/-- Two segments whose endpoint values under an affine functional are
strictly positive resp. non-positive cannot meet. -/
lemma no_meet_pos_nonpos (a b c d base n : Vec2)
    (ha : 0 < (a.subtract base).dot n) (hb : 0 < (b.subtract base).dot n)
    (hc : (c.subtract base).dot n ≤ 0) (hd : (d.subtract base).dot n ≤ 0) :
    ¬ segMeet a b c d := by
  rintro ⟨p, h1, h2⟩
  have hmin := seg_dot_ge_min a b base n p h1
  have hmax := seg_dot_le_max c d base n p h2
  have : 0 < min ((a.subtract base).dot n) ((b.subtract base).dot n) := lt_min ha hb
  have : max ((c.subtract base).dot n) ((d.subtract base).dot n) ≤ 0 := max_le hc hd
  linarith

/-- Two segments that each touch the separating line only in one endpoint,
and otherwise lie strictly on opposite sides, meet only if those endpoints
coincide. -/
lemma no_meet_zero_cross (a b c d base n : Vec2)
    (ha : (a.subtract base).dot n = 0) (hb : (b.subtract base).dot n < 0)
    (hc : (c.subtract base).dot n = 0) (hd : 0 < (d.subtract base).dot n)
    (hac : a ≠ c) : ¬ segMeet a b c d := by
  rintro ⟨p, h1, h2⟩
  obtain ⟨t, ht0, ht1, hpe, hkey⟩ := onSeg_dot_combo a b base n p h1
  obtain ⟨s, hs0, hs1, hqe, hskey⟩ := onSeg_dot_combo c d base n p h2
  rw [ha] at hkey
  rw [hc] at hskey
  have hle : (p.subtract base).dot n ≤ 0 := by nlinarith
  have hge : 0 ≤ (p.subtract base).dot n := by nlinarith
  have hz : (p.subtract base).dot n = 0 := le_antisymm hle hge
  have ht : t = 0 := by
    rw [hz] at hkey
    rcases mul_eq_zero.mp (by linarith : t * ((b.subtract base).dot n) = 0) with h | h
    · exact h
    · exact absurd h (ne_of_lt hb)
  have hs : s = 0 := by
    rw [hz] at hskey
    rcases mul_eq_zero.mp (by linarith : s * ((d.subtract base).dot n) = 0) with h | h
    · exact h
    · exact absurd h (ne_of_gt hd)
  have hpa : p = a := by rw [hpe, ht, add_scale_zero]
  have hpc : p = c := by rw [hqe, hs, add_scale_zero]
  exact hac (hpa ▸ hpc)

lemma onSegment_symm (a b p : Vec2) (h : onSegment a b p) : onSegment b a p := by
  obtain ⟨t, ht0, ht1, hpe⟩ := h
  refine ⟨1 - t, by linarith, by linarith, ?_⟩
  rw [hpe]
  simp only [Vec2.add, Vec2.subtract, Vec2.scale]
  congr 1 <;> ring

lemma segMeet_comm (a b c d : Vec2) (h : segMeet a b c d) : segMeet c d a b := by
  obtain ⟨p, h1, h2⟩ := h
  exact ⟨p, h2, h1⟩

lemma segMeet_symm_left (a b c d : Vec2) (h : segMeet a b c d) : segMeet b a c d := by
  obtain ⟨p, h1, h2⟩ := h
  exact ⟨p, onSegment_symm a b p h1, h2⟩

lemma ne_of_area3 (a b c : Vec2) (h : area3 a b c ≠ 0) : a ≠ b := by
  intro he
  apply h
  rw [he]
  simp only [area3]
  ring

/-- Adjacent edges `a → b` and `b → c` with `a`, `b`, `c` not collinear meet
only in the shared vertex `b`. -/
lemma adj_meet_eq (a b c : Vec2) (hgp : area3 a b c ≠ 0) :
    ∀ p : Vec2, onSegment a b p → onSegment b c p → p = b := by
  intro p h1 h2
  obtain ⟨t, ht0, ht1, hpe⟩ := h1
  obtain ⟨s, hs0, hs1, hqe⟩ := h2
  have heqx : a.x + t * (b.x - a.x) = b.x + s * (c.x - b.x) := by
    have := congrArg Vec2.x (hpe.symm.trans hqe)
    simpa [Vec2.add, Vec2.subtract, Vec2.scale] using this
  have heqy : a.y + t * (b.y - a.y) = b.y + s * (c.y - b.y) := by
    have := congrArg Vec2.y (hpe.symm.trans hqe)
    simpa [Vec2.add, Vec2.subtract, Vec2.scale] using this
  have hs2 : s * area3 a b c = 0 := by
    simp only [area3]
    linear_combination (b.y - a.y) * heqx + (a.x - b.x) * heqy
  have hs0' : s = 0 := by
    rcases mul_eq_zero.mp hs2 with h | h
    · exact h
    · exact absurd h hgp
  rw [hqe, hs0', add_scale_zero]

lemma segMeet_symm_right (a b c d : Vec2) (h : segMeet a b c d) : segMeet a b d c :=
  segMeet_comm _ _ _ _ (segMeet_symm_left _ _ _ _ (segMeet_comm _ _ _ _ h))

/-- The affine functional of the line through `base` and `w`, evaluated via
the `orth` normal, is the signed triangle area. -/
lemma dot_orth_eq_area3 (base w p : Vec2) :
    (p.subtract base).dot ((w.subtract base).orth) = area3 base p w := by
  simp only [area3, Vec2.subtract, Vec2.orth, Vec2.dot]
  ring

/-- Unfolding of `windQuad` on a four-element list. -/
lemma windQuad_four (v1 v2 v3 v4 : Vec2) :
    windQuad [v1, v2, v3, v4] =
      (if ((v2.subtract v1).orth).dot (v3.subtract v1) ≥ 0 ∧
          ((v2.subtract v1).orth).dot (v4.subtract v1) ≥ 0 then
        if ((v3.subtract v2).orth).dot (v4.subtract v2) ≥ 0 then [v1, v2, v3, v4]
        else [v1, v2, v4, v3]
      else if ((v2.subtract v1).orth).dot (v3.subtract v1) ≤ 0 ∧
          ((v2.subtract v1).orth).dot (v4.subtract v1) ≤ 0 then
        if ((v3.subtract v1).orth).dot (v4.subtract v1) ≥ 0 then [v1, v3, v4, v2]
        else [v1, v4, v3, v2]
      else if ((v2.subtract v1).orth).dot (v3.subtract v1) >
          ((v2.subtract v1).orth).dot (v4.subtract v1) then [v1, v4, v2, v3]
      else [v1, v3, v2, v4]) := rfl

/-- C4 (amended): for four points in general position (no three collinear —
in particular they always bound a simple quadrilateral in some cyclic
order), the cycle returned by `windQuad` has no two crossing edges: opposite
edges are disjoint and adjacent edges meet only in the shared vertex.
Without the general-position hypothesis the claim fails, see the
counterexample. -/
theorem windQuad_simple (v1 v2 v3 v4 : Vec2)
    (h123 : area3 v1 v2 v3 ≠ 0) (h124 : area3 v1 v2 v4 ≠ 0)
    (h134 : area3 v1 v3 v4 ≠ 0) (h234 : area3 v2 v3 v4 ≠ 0) :
    properQuadL (windQuad [v1, v2, v3, v4]) := by
  have conv3 : ((v2.subtract v1).orth).dot (v3.subtract v1) = -area3 v1 v2 v3 := by
    simp only [area3, Vec2.subtract, Vec2.orth, Vec2.dot]
    ring
  have conv4 : ((v2.subtract v1).orth).dot (v4.subtract v1) = -area3 v1 v2 v4 := by
    simp only [area3, Vec2.subtract, Vec2.orth, Vec2.dot]
    ring
  have convc : ((v3.subtract v2).orth).dot (v4.subtract v2) = -area3 v2 v3 v4 := by
    simp only [area3, Vec2.subtract, Vec2.orth, Vec2.dot]
    ring
  have conve : ((v3.subtract v1).orth).dot (v4.subtract v1) = -area3 v1 v3 v4 := by
    simp only [area3, Vec2.subtract, Vec2.orth, Vec2.dot]
    ring
  rw [windQuad_four]
  split_ifs with hb1 hb2 hb3 hb4 hb5 <;>
    simp only [properQuadL, List.getD_cons_zero, List.getD_cons_succ] <;>
    [skip; skip; skip; skip; skip; skip]
  · -- branch 1a : [v1, v2, v3, v4]
    rw [conv3] at hb1
    rw [conv4] at hb1
    rw [convc] at hb2
    have ha123 : area3 v1 v2 v3 < 0 := lt_of_le_of_ne (by linarith [hb1.1]) h123
    have ha124 : area3 v1 v2 v4 < 0 := lt_of_le_of_ne (by linarith [hb1.2]) h124
    have ha234 : area3 v2 v3 v4 < 0 := lt_of_le_of_ne (by linarith [hb2]) h234
    refine ⟨?_, ?_, ?_, ?_, ?_, ?_⟩
    · intro hm
      refine no_meet_pos_nonpos v3 v4 v1 v2 v1 ((v2.subtract v1).orth) ?_ ?_ ?_ ?_
        (segMeet_comm _ _ _ _ hm)
      · rw [dot_orth_eq_area3]
        have : area3 v1 v3 v2 = -area3 v1 v2 v3 := by simp only [area3]; ring
        linarith
      · rw [dot_orth_eq_area3]
        have : area3 v1 v4 v2 = -area3 v1 v2 v4 := by simp only [area3]; ring
        linarith
      · rw [dot_orth_eq_area3]
        have : area3 v1 v1 v2 = 0 := by simp only [area3]; ring
        linarith
      · rw [dot_orth_eq_area3]
        have : area3 v1 v2 v2 = 0 := by simp only [area3]; ring
        linarith
    · intro hm
      refine no_meet_pos_nonpos v4 v1 v2 v3 v2 ((v3.subtract v2).orth) ?_ ?_ ?_ ?_
        (segMeet_comm _ _ _ _ hm)
      · rw [dot_orth_eq_area3]
        have : area3 v2 v4 v3 = -area3 v2 v3 v4 := by simp only [area3]; ring
        linarith
      · rw [dot_orth_eq_area3]
        have : area3 v2 v1 v3 = -area3 v1 v2 v3 := by simp only [area3]; ring
        linarith
      · rw [dot_orth_eq_area3]
        have : area3 v2 v2 v3 = 0 := by simp only [area3]; ring
        linarith
      · rw [dot_orth_eq_area3]
        have : area3 v2 v3 v3 = 0 := by simp only [area3]; ring
        linarith
    · exact adj_meet_eq v1 v2 v3 h123
    · exact adj_meet_eq v2 v3 v4 h234
    · refine adj_meet_eq v3 v4 v1 ?_
      have e : area3 v3 v4 v1 = area3 v1 v3 v4 := by simp only [area3]; ring
      rw [e]
      exact h134
    · refine adj_meet_eq v4 v1 v2 ?_
      have e : area3 v4 v1 v2 = area3 v1 v2 v4 := by simp only [area3]; ring
      rw [e]
      exact h124
  · -- branch 1b : [v1, v2, v4, v3]
    rw [conv3] at hb1
    rw [conv4] at hb1
    rw [convc] at hb2
    have ha123 : area3 v1 v2 v3 < 0 := lt_of_le_of_ne (by linarith [hb1.1]) h123
    have ha124 : area3 v1 v2 v4 < 0 := lt_of_le_of_ne (by linarith [hb1.2]) h124
    have ha234 : 0 < area3 v2 v3 v4 := by
      rcases lt_or_gt_of_ne h234 with h | h
      · exfalso
        exact hb2 (by linarith)
      · exact h
    refine ⟨?_, ?_, ?_, ?_, ?_, ?_⟩
    · intro hm
      refine no_meet_pos_nonpos v4 v3 v1 v2 v1 ((v2.subtract v1).orth) ?_ ?_ ?_ ?_
        (segMeet_comm _ _ _ _ hm)
      · rw [dot_orth_eq_area3]
        have : area3 v1 v4 v2 = -area3 v1 v2 v4 := by simp only [area3]; ring
        linarith
      · rw [dot_orth_eq_area3]
        have : area3 v1 v3 v2 = -area3 v1 v2 v3 := by simp only [area3]; ring
        linarith
      · rw [dot_orth_eq_area3]
        have : area3 v1 v1 v2 = 0 := by simp only [area3]; ring
        linarith
      · rw [dot_orth_eq_area3]
        have : area3 v1 v2 v2 = 0 := by simp only [area3]; ring
        linarith
    · intro hm
      refine no_meet_pos_nonpos v3 v1 v2 v4 v2 ((v4.subtract v2).orth) ?_ ?_ ?_ ?_
        (segMeet_comm _ _ _ _ hm)
      · rw [dot_orth_eq_area3]
        have : area3 v2 v3 v4 = area3 v2 v3 v4 := rfl
        linarith
      · rw [dot_orth_eq_area3]
        have : area3 v2 v1 v4 = -area3 v1 v2 v4 := by simp only [area3]; ring
        linarith
      · rw [dot_orth_eq_area3]
        have : area3 v2 v2 v4 = 0 := by simp only [area3]; ring
        linarith
      · rw [dot_orth_eq_area3]
        have : area3 v2 v4 v4 = 0 := by simp only [area3]; ring
        linarith
    · refine adj_meet_eq v1 v2 v4 h124
    · refine adj_meet_eq v2 v4 v3 ?_
      have e : area3 v2 v4 v3 = -area3 v2 v3 v4 := by simp only [area3]; ring
      rw [e]
      intro h0
      exact h234 (by linarith)
    · refine adj_meet_eq v4 v3 v1 ?_
      have e : area3 v4 v3 v1 = -area3 v1 v3 v4 := by simp only [area3]; ring
      rw [e]
      intro h0
      exact h134 (by linarith)
    · refine adj_meet_eq v3 v1 v2 ?_
      have e : area3 v3 v1 v2 = area3 v1 v2 v3 := by simp only [area3]; ring
      rw [e]
      exact h123
  · -- branch 2a : [v1, v3, v4, v2]
    rw [conv3, conv4] at hb3
    rw [conve] at hb4
    have ha123 : 0 < area3 v1 v2 v3 := by
      rcases lt_or_gt_of_ne h123 with h | h
      · exfalso
        linarith [hb3.1]
      · exact h
    have ha124 : 0 < area3 v1 v2 v4 := by
      rcases lt_or_gt_of_ne h124 with h | h
      · exfalso
        linarith [hb3.2]
      · exact h
    have ha134 : area3 v1 v3 v4 < 0 := lt_of_le_of_ne (by linarith [hb4]) h134
    refine ⟨?_, ?_, ?_, ?_, ?_, ?_⟩
    · intro hm
      refine no_meet_pos_nonpos v4 v2 v1 v3 v1 ((v3.subtract v1).orth) ?_ ?_ ?_ ?_
        (segMeet_comm _ _ _ _ hm)
      · rw [dot_orth_eq_area3]
        have : area3 v1 v4 v3 = -area3 v1 v3 v4 := by simp only [area3]; ring
        linarith
      · rw [dot_orth_eq_area3]
        have : area3 v1 v2 v3 = area3 v1 v2 v3 := rfl
        linarith
      · rw [dot_orth_eq_area3]
        have : area3 v1 v1 v3 = 0 := by simp only [area3]; ring
        linarith
      · rw [dot_orth_eq_area3]
        have : area3 v1 v3 v3 = 0 := by simp only [area3]; ring
        linarith
    · intro hm
      refine no_meet_pos_nonpos v3 v4 v2 v1 v1 (((v2.subtract v1).orth).negate) ?_ ?_ ?_ ?_ hm
      · rw [dot_negate_right, dot_orth_eq_area3]
        have : area3 v1 v3 v2 = -area3 v1 v2 v3 := by simp only [area3]; ring
        linarith
      · rw [dot_negate_right, dot_orth_eq_area3]
        have : area3 v1 v4 v2 = -area3 v1 v2 v4 := by simp only [area3]; ring
        linarith
      · rw [dot_negate_right, dot_orth_eq_area3]
        have : area3 v1 v2 v2 = 0 := by simp only [area3]; ring
        linarith
      · rw [dot_negate_right, dot_orth_eq_area3]
        have : area3 v1 v1 v2 = 0 := by simp only [area3]; ring
        linarith
    · exact adj_meet_eq v1 v3 v4 h134
    · refine adj_meet_eq v3 v4 v2 ?_
      have e : area3 v3 v4 v2 = area3 v2 v3 v4 := by simp only [area3]; ring
      rw [e]
      exact h234
    · refine adj_meet_eq v4 v2 v1 ?_
      have e : area3 v4 v2 v1 = -area3 v1 v2 v4 := by simp only [area3]; ring
      rw [e]
      intro h0
      exact h124 (by linarith)
    · refine adj_meet_eq v2 v1 v3 ?_
      have e : area3 v2 v1 v3 = -area3 v1 v2 v3 := by simp only [area3]; ring
      rw [e]
      intro h0
      exact h123 (by linarith)
  · -- branch 2b : [v1, v4, v3, v2]
    rw [conv3, conv4] at hb3
    rw [conve] at hb4
    have ha123 : 0 < area3 v1 v2 v3 := by
      rcases lt_or_gt_of_ne h123 with h | h
      · exfalso
        linarith [hb3.1]
      · exact h
    have ha124 : 0 < area3 v1 v2 v4 := by
      rcases lt_or_gt_of_ne h124 with h | h
      · exfalso
        linarith [hb3.2]
      · exact h
    have ha134 : 0 < area3 v1 v3 v4 := by
      rcases lt_or_gt_of_ne h134 with h | h
      · exfalso
        exact hb4 (by linarith)
      · exact h
    refine ⟨?_, ?_, ?_, ?_, ?_, ?_⟩
    · intro hm
      refine no_meet_pos_nonpos v3 v2 v1 v4 v1 ((v4.subtract v1).orth) ?_ ?_ ?_ ?_
        (segMeet_comm _ _ _ _ hm)
      · rw [dot_orth_eq_area3]
        have : area3 v1 v3 v4 = area3 v1 v3 v4 := rfl
        linarith
      · rw [dot_orth_eq_area3]
        have : area3 v1 v2 v4 = area3 v1 v2 v4 := rfl
        linarith
      · rw [dot_orth_eq_area3]
        have : area3 v1 v1 v4 = 0 := by simp only [area3]; ring
        linarith
      · rw [dot_orth_eq_area3]
        have : area3 v1 v4 v4 = 0 := by simp only [area3]; ring
        linarith
    · intro hm
      refine no_meet_pos_nonpos v4 v3 v2 v1 v1 (((v2.subtract v1).orth).negate) ?_ ?_ ?_ ?_ hm
      · rw [dot_negate_right, dot_orth_eq_area3]
        have : area3 v1 v4 v2 = -area3 v1 v2 v4 := by simp only [area3]; ring
        linarith
      · rw [dot_negate_right, dot_orth_eq_area3]
        have : area3 v1 v3 v2 = -area3 v1 v2 v3 := by simp only [area3]; ring
        linarith
      · rw [dot_negate_right, dot_orth_eq_area3]
        have : area3 v1 v2 v2 = 0 := by simp only [area3]; ring
        linarith
      · rw [dot_negate_right, dot_orth_eq_area3]
        have : area3 v1 v1 v2 = 0 := by simp only [area3]; ring
        linarith
    · refine adj_meet_eq v1 v4 v3 ?_
      have e : area3 v1 v4 v3 = -area3 v1 v3 v4 := by simp only [area3]; ring
      rw [e]
      intro h0
      exact h134 (by linarith)
    · refine adj_meet_eq v4 v3 v2 ?_
      have e : area3 v4 v3 v2 = -area3 v2 v3 v4 := by simp only [area3]; ring
      rw [e]
      intro h0
      exact h234 (by linarith)
    · refine adj_meet_eq v3 v2 v1 ?_
      have e : area3 v3 v2 v1 = -area3 v1 v2 v3 := by simp only [area3]; ring
      rw [e]
      intro h0
      exact h123 (by linarith)
    · refine adj_meet_eq v2 v1 v4 ?_
      have e : area3 v2 v1 v4 = -area3 v1 v2 v4 := by simp only [area3]; ring
      rw [e]
      intro h0
      exact h124 (by linarith)
  · -- branch 3a : [v1, v4, v2, v3]
    rw [conv3] at hb5
    rw [conv4] at hb5
    have hmix : ¬ (area3 v1 v2 v3 < 0 ∧ area3 v1 v2 v4 < 0) := by
      intro hcon
      rw [conv3, conv4] at hb1
      exact hb1 ⟨by linarith [hcon.1], by linarith [hcon.2]⟩
    have hmix2 : ¬ (0 < area3 v1 v2 v3 ∧ 0 < area3 v1 v2 v4) := by
      intro hcon
      rw [conv3, conv4] at hb3
      exact hb3 ⟨by linarith [hcon.1], by linarith [hcon.2]⟩
    have ha123 : area3 v1 v2 v3 < 0 := by
      rcases lt_or_gt_of_ne h123 with h | h
      · exact h
      · exfalso
        rcases lt_or_gt_of_ne h124 with h4 | h4
        · linarith
        · exact hmix2 ⟨h, h4⟩
    have ha124 : 0 < area3 v1 v2 v4 := by
      rcases lt_or_gt_of_ne h124 with h4 | h4
      · exact absurd ⟨ha123, h4⟩ hmix
      · exact h4
    refine ⟨?_, ?_, ?_, ?_, ?_, ?_⟩
    · refine no_meet_zero_cross v1 v4 v2 v3 v1 ((v2.subtract v1).orth) ?_ ?_ ?_ ?_ ?_
      · rw [dot_orth_eq_area3]
        simp only [area3]
        ring
      · rw [dot_orth_eq_area3]
        have : area3 v1 v4 v2 = -area3 v1 v2 v4 := by simp only [area3]; ring
        linarith
      · rw [dot_orth_eq_area3]
        have : area3 v1 v2 v2 = 0 := by simp only [area3]; ring
        linarith
      · rw [dot_orth_eq_area3]
        have : area3 v1 v3 v2 = -area3 v1 v2 v3 := by simp only [area3]; ring
        linarith
      · exact ne_of_area3 v1 v2 v3 h123
    · intro hm
      have hm2 : segMeet v2 v4 v1 v3 :=
        segMeet_symm_right _ _ _ _ (segMeet_symm_left _ _ _ _ hm)
      refine no_meet_zero_cross v2 v4 v1 v3 v1 ((v2.subtract v1).orth) ?_ ?_ ?_ ?_ ?_ hm2
      · rw [dot_orth_eq_area3]
        have : area3 v1 v2 v2 = 0 := by simp only [area3]; ring
        linarith
      · rw [dot_orth_eq_area3]
        have : area3 v1 v4 v2 = -area3 v1 v2 v4 := by simp only [area3]; ring
        linarith
      · rw [dot_orth_eq_area3]
        simp only [area3]
        ring
      · rw [dot_orth_eq_area3]
        have : area3 v1 v3 v2 = -area3 v1 v2 v3 := by simp only [area3]; ring
        linarith
      · exact (ne_of_area3 v1 v2 v3 h123).symm
    · refine adj_meet_eq v1 v4 v2 ?_
      have e : area3 v1 v4 v2 = -area3 v1 v2 v4 := by simp only [area3]; ring
      rw [e]
      intro h0
      exact h124 (by linarith)
    · refine adj_meet_eq v4 v2 v3 ?_
      have e : area3 v4 v2 v3 = area3 v2 v3 v4 := by simp only [area3]; ring
      rw [e]
      exact h234
    · refine adj_meet_eq v2 v3 v1 ?_
      have e : area3 v2 v3 v1 = area3 v1 v2 v3 := by simp only [area3]; ring
      rw [e]
      exact h123
    · refine adj_meet_eq v3 v1 v4 ?_
      have e : area3 v3 v1 v4 = area3 v1 v4 v3 := by simp only [area3]; ring
      rw [e]
      have e2 : area3 v1 v4 v3 = -area3 v1 v3 v4 := by simp only [area3]; ring
      rw [e2]
      intro h0
      exact h134 (by linarith)
  · -- branch 3b : [v1, v3, v2, v4]
    rw [conv3] at hb5
    rw [conv4] at hb5
    have hmix : ¬ (area3 v1 v2 v3 < 0 ∧ area3 v1 v2 v4 < 0) := by
      intro hcon
      rw [conv3, conv4] at hb1
      exact hb1 ⟨by linarith [hcon.1], by linarith [hcon.2]⟩
    have hmix2 : ¬ (0 < area3 v1 v2 v3 ∧ 0 < area3 v1 v2 v4) := by
      intro hcon
      rw [conv3, conv4] at hb3
      exact hb3 ⟨by linarith [hcon.1], by linarith [hcon.2]⟩
    have ha123 : 0 < area3 v1 v2 v3 := by
      rcases lt_or_gt_of_ne h123 with h | h
      · exfalso
        rcases lt_or_gt_of_ne h124 with h4 | h4
        · exact hmix ⟨h, h4⟩
        · linarith
      · exact h
    have ha124 : area3 v1 v2 v4 < 0 := by
      rcases lt_or_gt_of_ne h124 with h4 | h4
      · exact h4
      · exact absurd ⟨ha123, h4⟩ hmix2
    refine ⟨?_, ?_, ?_, ?_, ?_, ?_⟩
    · refine no_meet_zero_cross v1 v3 v2 v4 v1 ((v2.subtract v1).orth) ?_ ?_ ?_ ?_ ?_
      · rw [dot_orth_eq_area3]
        simp only [area3]
        ring
      · rw [dot_orth_eq_area3]
        have : area3 v1 v3 v2 = -area3 v1 v2 v3 := by simp only [area3]; ring
        linarith
      · rw [dot_orth_eq_area3]
        have : area3 v1 v2 v2 = 0 := by simp only [area3]; ring
        linarith
      · rw [dot_orth_eq_area3]
        have : area3 v1 v4 v2 = -area3 v1 v2 v4 := by simp only [area3]; ring
        linarith
      · exact ne_of_area3 v1 v2 v3 h123
    · intro hm
      have hm2 : segMeet v2 v3 v1 v4 :=
        segMeet_symm_right _ _ _ _ (segMeet_symm_left _ _ _ _ hm)
      refine no_meet_zero_cross v2 v3 v1 v4 v1 ((v2.subtract v1).orth) ?_ ?_ ?_ ?_ ?_ hm2
      · rw [dot_orth_eq_area3]
        have : area3 v1 v2 v2 = 0 := by simp only [area3]; ring
        linarith
      · rw [dot_orth_eq_area3]
        have : area3 v1 v3 v2 = -area3 v1 v2 v3 := by simp only [area3]; ring
        linarith
      · rw [dot_orth_eq_area3]
        simp only [area3]
        ring
      · rw [dot_orth_eq_area3]
        have : area3 v1 v4 v2 = -area3 v1 v2 v4 := by simp only [area3]; ring
        linarith
      · exact (ne_of_area3 v1 v2 v3 h123).symm
    · refine adj_meet_eq v1 v3 v2 ?_
      have e : area3 v1 v3 v2 = -area3 v1 v2 v3 := by simp only [area3]; ring
      rw [e]
      intro h0
      exact h123 (by linarith)
    · refine adj_meet_eq v3 v2 v4 ?_
      have e : area3 v3 v2 v4 = -area3 v2 v3 v4 := by simp only [area3]; ring
      rw [e]
      intro h0
      exact h234 (by linarith)
    · refine adj_meet_eq v2 v4 v1 ?_
      have e : area3 v2 v4 v1 = area3 v1 v2 v4 := by simp only [area3]; ring
      rw [e]
      exact h124
    · refine adj_meet_eq v4 v1 v3 ?_
      have e : area3 v4 v1 v3 = area3 v1 v3 v4 := by simp only [area3]; ring
      rw [e]
      exact h134

/-- Witness for the amended C4 at the points `(0,0), (4,0), (2,4), (2,1)`
(the fourth point inside the triangle of the others — no three collinear). -/
theorem windQuad_simple_witness :
    properQuadL (windQuad [⟨0, 0⟩, ⟨4, 0⟩, ⟨2, 4⟩, ⟨2, 1⟩]) :=
  windQuad_simple ⟨0, 0⟩ ⟨4, 0⟩ ⟨2, 4⟩ ⟨2, 1⟩
    (by norm_num [area3]) (by norm_num [area3]) (by norm_num [area3]) (by norm_num [area3])

/-- Counterexample for C4: the four points `(0,0), (2,0), (1,0), (1,1)` form
a simple quadrilateral in the cyclic order `(0,0) → (1,0) → (2,0) → (1,1)`
(first conjunct), yet `windQuad` returns the cycle
`(0,0) → (1,1) → (1,0) → (2,0)`, whose last two edges overlap along the
segment from `(1,0)` to `(2,0)`: they share the non-vertex point `(3/2, 0)`,
so the output has two crossing edges. -/
theorem windQuad_crossing_counterexample :
    properQuad ⟨0, 0⟩ ⟨1, 0⟩ ⟨2, 0⟩ ⟨1, 1⟩ ∧
    windQuad [⟨0, 0⟩, ⟨2, 0⟩, ⟨1, 0⟩, ⟨1, 1⟩] = [⟨0, 0⟩, ⟨1, 1⟩, ⟨1, 0⟩, ⟨2, 0⟩] ∧
    ¬ properQuadL (windQuad [⟨0, 0⟩, ⟨2, 0⟩, ⟨1, 0⟩, ⟨1, 1⟩]) := by
  have hwq : windQuad [⟨0, 0⟩, ⟨2, 0⟩, ⟨1, 0⟩, ⟨1, 1⟩] =
      ([⟨0, 0⟩, ⟨1, 1⟩, ⟨1, 0⟩, ⟨2, 0⟩] : List Vec2) := by
    unfold windQuad
    norm_num [Vec2.subtract, Vec2.orth, Vec2.dot]
  refine ⟨⟨?_, ?_, ?_, ?_, ?_, ?_⟩, hwq, ?_⟩
  · -- edges (0,0)-(1,0) and (2,0)-(1,1) are disjoint
    rintro ⟨p, ⟨t, ht0, ht1, rfl⟩, ⟨s, hs0, hs1, heq⟩⟩
    have hx := congrArg Vec2.x heq
    have hy := congrArg Vec2.y heq
    simp [Vec2.add, Vec2.scale, Vec2.subtract] at hx hy
    linarith
  · -- edges (1,0)-(2,0) and (1,1)-(0,0) are disjoint
    rintro ⟨p, ⟨t, ht0, ht1, rfl⟩, ⟨s, hs0, hs1, heq⟩⟩
    have hx := congrArg Vec2.x heq
    have hy := congrArg Vec2.y heq
    simp [Vec2.add, Vec2.scale, Vec2.subtract] at hx hy
    linarith
  · -- adjacent edges meet only at (1,0)
    rintro p ⟨t, ht0, ht1, rfl⟩ ⟨s, hs0, hs1, heq⟩
    have hx := congrArg Vec2.x heq
    have hy := congrArg Vec2.y heq
    simp [Vec2.add, Vec2.scale, Vec2.subtract] at hx hy
    have ht : t = 1 := by linarith
    subst ht
    simp [Vec2.add, Vec2.scale, Vec2.subtract]
  · -- adjacent edges meet only at (2,0)
    rintro p ⟨t, ht0, ht1, rfl⟩ ⟨s, hs0, hs1, heq⟩
    have hx := congrArg Vec2.x heq
    have hy := congrArg Vec2.y heq
    simp [Vec2.add, Vec2.scale, Vec2.subtract] at hx hy
    have ht : t = 1 := by linarith
    subst ht
    simp [Vec2.add, Vec2.scale, Vec2.subtract]
  · -- adjacent edges meet only at (1,1)
    rintro p ⟨t, ht0, ht1, rfl⟩ ⟨s, hs0, hs1, heq⟩
    have hx := congrArg Vec2.x heq
    have hy := congrArg Vec2.y heq
    simp [Vec2.add, Vec2.scale, Vec2.subtract] at hx hy
    have ht : t = 1 := by linarith
    subst ht
    simp [Vec2.add, Vec2.scale, Vec2.subtract]
  · -- adjacent edges meet only at (0,0)
    rintro p ⟨t, ht0, ht1, rfl⟩ ⟨s, hs0, hs1, heq⟩
    have hx := congrArg Vec2.x heq
    have hy := congrArg Vec2.y heq
    simp [Vec2.add, Vec2.scale, Vec2.subtract] at hx hy
    have ht : t = 1 := by linarith
    subst ht
    simp [Vec2.add, Vec2.scale, Vec2.subtract]
  · -- the output cycle self-intersects
    rw [hwq]
    intro h
    have hadj := h.2.2.2.2.1
    simp only [List.getD_cons_zero, List.getD_cons_succ] at hadj
    have h1 : onSegment ⟨1, 0⟩ ⟨2, 0⟩ ⟨3 / 2, 0⟩ := by
      refine ⟨1 / 2, by norm_num, by norm_num, ?_⟩
      simp [Vec2.add, Vec2.scale, Vec2.subtract]
      norm_num
    have h2 : onSegment ⟨2, 0⟩ ⟨0, 0⟩ ⟨3 / 2, 0⟩ := by
      refine ⟨1 / 4, by norm_num, by norm_num, ?_⟩
      simp [Vec2.add, Vec2.scale, Vec2.subtract]
      norm_num
    have := hadj ⟨3 / 2, 0⟩ h1 h2
    have hx := congrArg Vec2.x this
    norm_num at hx

/-!  ## C6 — respawn containment -/

lemma respawnExit_accept (b : Ball) (u : ℕ → ℝ) (k : ℕ)
    (hex : ∃ i, respawnAccept b u k i) : respawnAccept b u k (respawnExit b u k) := by
  unfold respawnExit
  rw [dif_pos hex]
  exact Nat.find_spec hex

lemma respawn_pos (b : Ball) (u : ℕ → ℝ) (k : ℕ) :
    (b.respawn u k).1.pos = respawnSample b u k (respawnExit b u k) := rfl

/-- Counterexample for C6: in a 100 × 100 arena, draws `(1/10, 74/75)` give
the respawn position `(18, 178/3)`.  It is accepted by the rejection loop
(its distance from the center `(50, 50)` is exactly `100/3 = arenaWidth/3`),
yet `y = 178/3 > 50 = 0.5 · arenaHeight` violates the claimed vertical bound,
and the distance does not strictly exceed `arenaWidth / 3` either. -/
theorem respawn_containment_counterexample :
    (∀ n, 0 ≤ counterDraws n ∧ counterDraws n < 1) ∧
    (counterBall.respawn counterDraws 0).1.pos = ⟨18, 178 / 3⟩ ∧
    ¬ (counterBall.respawn counterDraws 0).1.pos.y ≤ (1 / 2) * counterBall.yMax ∧
    ¬ ((counterBall.respawn counterDraws 0).1.pos.subtract counterBall.screenCenter).length
        > counterBall.xMax / 3 := by
  have hsample : respawnSample counterBall counterDraws 0 0 = ⟨18, 178 / 3⟩ := by
    unfold respawnSample counterBall counterDraws RADIUS
    norm_num
  have haccept0 : respawnAccept counterBall counterDraws 0 0 := by
    unfold respawnAccept
    rw [hsample]
    show ¬ _ < _
    have hsub : (Vec2.mk 18 (178 / 3)).subtract counterBall.screenCenter = ⟨-32, 28 / 3⟩ := by
      unfold counterBall
      simp [Vec2.subtract]
      norm_num
    rw [hsub]
    have hlen : (Vec2.mk (-32) (28 / 3)).length = 100 / 3 := by
      apply length_eval (by norm_num)
      norm_num
    rw [hlen]
    unfold counterBall
    norm_num
  have hexit : respawnExit counterBall counterDraws 0 = 0 := by
    unfold respawnExit
    rw [dif_pos ⟨0, haccept0⟩]
    exact Nat.find_eq_zero _ |>.mpr haccept0
  have hpos : (counterBall.respawn counterDraws 0).1.pos = ⟨18, 178 / 3⟩ := by
    rw [respawn_pos, hexit, hsample]
  refine ⟨?_, hpos, ?_, ?_⟩
  · intro n
    unfold counterDraws
    split_ifs <;> norm_num
  · rw [hpos]
    show ¬ (178 / 3 : ℝ) ≤ _
    unfold counterBall
    norm_num
  · rw [hpos]
    have hsub : (Vec2.mk 18 (178 / 3)).subtract counterBall.screenCenter = ⟨-32, 28 / 3⟩ := by
      unfold counterBall
      simp [Vec2.subtract]
      norm_num
    rw [hsub]
    have hlen : (Vec2.mk (-32) (28 / 3)).length = 100 / 3 := by
      apply length_eval (by norm_num)
      norm_num
    rw [hlen]
    unfold counterBall
    norm_num

/-- C6 (amended): provided the rejection loop terminates (some sample is
accepted), the draws lie in `[0, 1)` and the arena is at least `2·RADIUS`
wide, every respawned ball satisfies `RADIUS ≤ x ≤ arenaWidth − RADIUS` and
`RADIUS ≤ y ≤ RADIUS + arenaHeight/2` (the claimed upper bound
`0.5·arenaHeight` is off by the `RADIUS` offset the code adds), its distance
from the screen center is at least (not necessarily strictly greater than)
`arenaWidth/3`, its health is reset to 3 and its dying state cleared. -/
theorem respawn_containment (b : Ball) (u : ℕ → ℝ) (k : ℕ)
    (hu : ∀ n, 0 ≤ u n ∧ u n < 1)
    (hex : ∃ i, respawnAccept b u k i)
    (hx : 2 * RADIUS ≤ b.xMax) (hy : 0 ≤ b.yMax) :
    RADIUS ≤ (b.respawn u k).1.pos.x ∧
    (b.respawn u k).1.pos.x ≤ b.xMax - RADIUS ∧
    RADIUS ≤ (b.respawn u k).1.pos.y ∧
    (b.respawn u k).1.pos.y ≤ RADIUS + b.yMax / 2 ∧
    ¬ ((b.respawn u k).1.pos.subtract b.screenCenter).length < b.xMax / 3 ∧
    (b.respawn u k).1.health = 3 ∧
    (b.respawn u k).1.dying = false := by
  have hacc := respawnExit_accept b u k hex
  set i := respawnExit b u k
  have hpos : (b.respawn u k).1.pos = respawnSample b u k i := rfl
  have hux0 := (hu (k + 2 * i)).1
  have hux1 := (hu (k + 2 * i)).2
  have huy0 := (hu (k + 2 * i + 1)).1
  have huy1 := (hu (k + 2 * i + 1)).2
  have hsx : (respawnSample b u k i).x = RADIUS + u (k + 2 * i) * (b.xMax - 2 * RADIUS) := rfl
  have hsy : (respawnSample b u k i).y = RADIUS + u (k + 2 * i + 1) * (b.yMax * (1 / 2)) := rfl
  refine ⟨?_, ?_, ?_, ?_, ?_, rfl, rfl⟩
  · rw [hpos, hsx]
    unfold RADIUS at hx ⊢
    nlinarith
  · rw [hpos, hsx]
    unfold RADIUS at hx ⊢
    nlinarith
  · rw [hpos, hsy]
    unfold RADIUS
    nlinarith
  · rw [hpos, hsy]
    unfold RADIUS
    nlinarith
  · rw [hpos]
    exact hacc

/-- Witness for the amended C6: the all-zero draw stream is accepted at once
in the 100 × 100 arena (first sample `(10, 10)` is `√3200 ≥ 100/3` from the
center), and the theorem's containment conclusions follow. -/
theorem respawn_containment_witness :
    RADIUS ≤ (counterBall.respawn (fun _ => 0) 0).1.pos.x ∧
    (counterBall.respawn (fun _ => 0) 0).1.pos.x ≤ counterBall.xMax - RADIUS ∧
    RADIUS ≤ (counterBall.respawn (fun _ => 0) 0).1.pos.y ∧
    (counterBall.respawn (fun _ => 0) 0).1.pos.y ≤ RADIUS + counterBall.yMax / 2 ∧
    ¬ ((counterBall.respawn (fun _ => 0) 0).1.pos.subtract counterBall.screenCenter).length
        < counterBall.xMax / 3 ∧
    (counterBall.respawn (fun _ => 0) 0).1.health = 3 ∧
    (counterBall.respawn (fun _ => 0) 0).1.dying = false := by
  refine respawn_containment counterBall (fun _ => 0) 0 (fun n => by norm_num) ⟨0, ?_⟩
    (by unfold counterBall RADIUS; norm_num) (by unfold counterBall; norm_num)
  unfold respawnAccept
  have hsample : respawnSample counterBall (fun _ => 0) 0 0 = ⟨10, 10⟩ := by
    unfold respawnSample counterBall RADIUS
    norm_num
  rw [hsample]
  show ¬ _ < _
  have hsub : (Vec2.mk 10 10).subtract counterBall.screenCenter = ⟨-40, -40⟩ := by
    unfold counterBall
    simp [Vec2.subtract]
    norm_num
  rw [hsub]
  push_neg
  show counterBall.xMax / 3 ≤ (Vec2.mk (-40) (-40)).length
  have : (Vec2.mk (-40) (-40)).length = Real.sqrt 3200 := by
    simp only [Vec2.length, Vec2.dot]
    norm_num
  rw [this]
  unfold counterBall
  rw [show (100 : ℝ) / 3 ≤ Real.sqrt 3200 ↔ ((100 : ℝ) / 3) ^ 2 ≤ 3200 from
    Real.le_sqrt' (by norm_num)]
  norm_num

/-!  ## C8 — `Game.step` is a no-op once the game is over -/

/-- C8: once the game-over flag is set, `Game.step` changes nothing: the full
game state (saber, balls, score, lives, flags) and even the random cursor are
returned unchanged. -/
theorem step_noop_of_done (g : GameState) (target : Vec2) (dt : ℝ) (u : ℕ → ℝ) (k : ℕ)
    (h : g.done = true) : Game.step g target dt u k = (g, k) := by
  unfold Game.step
  rw [if_pos (Or.inr (by rw [h]))]

/-- Witness for C8 on a freshly constructed game with the done flag set. -/
theorem step_noop_of_done_witness :
    Game.step { (initGame 600 600 (fun _ => 0) 0).1 with done := true }
      ⟨0, 0⟩ (1 / 60) (fun _ => 0) 0
      = ({ (initGame 600 600 (fun _ => 0) 0).1 with done := true }, 0) :=
  step_noop_of_done _ _ _ _ _ rfl

/-!  ## C3 — the damage rule of collision resolution -/

lemma ball_set_enabled_self (b : Ball) (h : b.enabled = true) :
    { b with enabled := true } = b := by
  cases b
  simp_all

lemma getD_set_self (l : List Ball) (i : ℕ) (hi : i < l.length) (b1 : Ball) :
    (l.set i b1).getD i dBall = b1 := by
  rw [List.getD_eq_getElem _ _ (by simpa using hi)]
  simp

lemma getD_after_enable (l : List Ball) (i j : ℕ) (hi : i < l.length) (b1 : Ball)
    (hb1 : b1.enabled = true) :
    ((l.set i b1).set j { ((l.set i b1).getD j dBall) with enabled := true }).getD i dBall
      = b1 := by
  by_cases hji : j = i
  · subst hji
    rw [getD_set_self l j hi b1, ball_set_enabled_self b1 hb1]
    exact getD_set_self _ j (by simpa using hi) b1
  · rw [List.getD_eq_getElem _ _ (by simpa using hi), List.getElem_set_ne (by omega),
      List.getElem_set_self (by simpa using hi)]

lemma resolveOne_skip_dying (freeplay : Bool) (sab : Saber) (pvs : List Vec2) (uv : Vec2)
    (dt : ℝ) (st : ResState) (i : ℕ)
    (hd : (st.balls.getD i dBall).dying = true) :
    resolveOne freeplay sab pvs uv dt st i = st := by
  unfold resolveOne
  rw [if_pos (Or.inr (by rw [hd]))]

lemma resolveOne_latched (freeplay : Bool) (sab : Saber) (pvs : List Vec2) (uv : Vec2)
    (dt : ℝ) (st : ResState) (i : ℕ) (hi : i < st.balls.length)
    (hcol : (st.balls.getD i dBall).inCollision = true) :
    ((resolveOne freeplay sab pvs uv dt st i).balls.getD i dBall).health
        = (st.balls.getD i dBall).health ∧
    (resolveOne freeplay sab pvs uv dt st i).score = st.score := by
  unfold resolveOne
  dsimp only
  split_ifs with h1 h2 h3 h4 h5 <;>
    simp_all [getD_set_self _ _ hi]

lemma resolveOne_damage (freeplay : Bool) (sab : Saber) (pvs : List Vec2) (uv : Vec2)
    (dt : ℝ) (st : ResState) (i : ℕ) (hi : i < st.balls.length)
    (hen : (st.balls.getD i dBall).enabled = true)
    (hnd : (st.balls.getD i dBall).dying = false)
    (hfar : ¬ (sab.pos.subtract (st.balls.getD i dBall).pos).length < 2 * RADIUS)
    (hint : quadSegmentIntersect pvs ((st.balls.getD i dBall).computeSweptRegion dt)
      (st.balls.getD i dBall).radius = true)
    (hnc : (st.balls.getD i dBall).inCollision = false)
    (hsp : |(contactNormal uv sab.pos (st.balls.getD i dBall).pos).dot
        (computeVelocityAlongSaber sab.vel sab.angle sab.angVel
          (((st.balls.getD i dBall).pos.subtract sab.pos).dot uv)) -
      (contactNormal uv sab.pos (st.balls.getD i dBall).pos).dot (st.balls.getD i dBall).vel|
        ≥ DAMAGE_SPEED) :
    ((resolveOne freeplay sab pvs uv dt st i).balls.getD i dBall).health
        = (st.balls.getD i dBall).health - 1 ∧
    ((st.balls.getD i dBall).health = 1 →
      ((resolveOne freeplay sab pvs uv dt st i).balls.getD i dBall).dying = true ∧
      (resolveOne freeplay sab pvs uv dt st i).score = st.score + 1) := by
  have hhil : ¬ (¬ freeplay = true ∧ ¬ st.hurt = true ∧
      (sab.pos.subtract (st.balls.getD i dBall).pos).length < 2 * RADIUS) :=
    fun hcon => hfar hcon.2.2
  unfold resolveOne
  dsimp only
  rw [if_neg (by rw [hen, hnd]; simp)]
  rw [if_neg (fun hcon => hhil hcon.1)]
  rw [if_pos hint]
  simp only [if_neg hhil]
  have hncp : ¬ (st.balls.getD i dBall).inCollision = true := by
    rw [hnc]
    simp
  by_cases hh : (st.balls.getD i dBall).health - 1 ≤ 0
  · rw [if_pos ⟨hncp, hsp, hh⟩]
    have hb1en : ({ st.balls.getD i dBall with
        dying := true, health := (st.balls.getD i dBall).health - 1 } : Ball).enabled = true :=
      hen
    by_cases hen2 : (st.score + 1) % NEW_BALL_EVERY_N_POINTS = 0 ∧ st.numBalls < MAX_NUM_BALLS
    · rw [if_pos hen2]
      constructor
      · rw [getD_after_enable st.balls i st.numBalls hi _ hb1en]
      · intro h1
        refine ⟨?_, rfl⟩
        rw [getD_after_enable st.balls i st.numBalls hi _ hb1en]
    · rw [if_neg hen2]
      constructor
      · rw [getD_set_self st.balls i hi]
      · intro h1
        refine ⟨?_, rfl⟩
        rw [getD_set_self st.balls i hi]
  · rw [if_neg (fun hcon => hh hcon.2.2)]
    have hc5 : ¬ (st.balls.getD i dBall).inCollision = true ∧
        |(contactNormal uv sab.pos (st.balls.getD i dBall).pos).dot
            (computeVelocityAlongSaber sab.vel sab.angle sab.angVel
              (((st.balls.getD i dBall).pos.subtract sab.pos).dot uv)) -
          (contactNormal uv sab.pos (st.balls.getD i dBall).pos).dot
            (st.balls.getD i dBall).vel| ≥ DAMAGE_SPEED := ⟨hncp, hsp⟩
    rw [if_pos hc5]
    constructor
    · split_ifs with hv
      · rw [getD_set_self st.balls i hi]
      · rw [getD_set_self st.balls i hi]
    · intro h1
      exfalso
      rw [h1] at hh
      simp at hh

/-- C3: the damage rule of collision resolution.  For the per-ball resolution
callback of `Game.step`: (1) an enabled, non-dying ball, not touching the
hilt, whose swept segment intersects the saber's swept quad, whose
`inCollision` latch was false, and whose contact speed `|vpn − vbn|` is at
least `DAMAGE_SPEED` (the threshold is inclusive) loses exactly one point of
health — and if its health was 1 it transitions to dying and the score is
incremented exactly once; (2) a dying ball is skipped entirely, so no further
damage or score can accrue while it dies; (3) a ball whose latch is true
takes no damage and produces no score even if the intersection persists. -/
theorem step_damage_rule (freeplay : Bool) (sab : Saber) (pvs : List Vec2) (uv : Vec2)
    (dt : ℝ) (st : ResState) (i : ℕ) (hi : i < st.balls.length) :
    (((st.balls.getD i dBall).enabled = true ∧
      (st.balls.getD i dBall).dying = false ∧
      ¬ (sab.pos.subtract (st.balls.getD i dBall).pos).length < 2 * RADIUS ∧
      quadSegmentIntersect pvs ((st.balls.getD i dBall).computeSweptRegion dt)
        (st.balls.getD i dBall).radius = true ∧
      (st.balls.getD i dBall).inCollision = false ∧
      |(contactNormal uv sab.pos (st.balls.getD i dBall).pos).dot
          (computeVelocityAlongSaber sab.vel sab.angle sab.angVel
            (((st.balls.getD i dBall).pos.subtract sab.pos).dot uv)) -
        (contactNormal uv sab.pos (st.balls.getD i dBall).pos).dot
          (st.balls.getD i dBall).vel| ≥ DAMAGE_SPEED) →
      (((resolveOne freeplay sab pvs uv dt st i).balls.getD i dBall).health
          = (st.balls.getD i dBall).health - 1 ∧
        ((st.balls.getD i dBall).health = 1 →
          ((resolveOne freeplay sab pvs uv dt st i).balls.getD i dBall).dying = true ∧
          (resolveOne freeplay sab pvs uv dt st i).score = st.score + 1))) ∧
    ((st.balls.getD i dBall).dying = true →
      resolveOne freeplay sab pvs uv dt st i = st) ∧
    ((st.balls.getD i dBall).inCollision = true →
      ((resolveOne freeplay sab pvs uv dt st i).balls.getD i dBall).health
          = (st.balls.getD i dBall).health ∧
      (resolveOne freeplay sab pvs uv dt st i).score = st.score) := by
  refine ⟨?_, ?_, ?_⟩
  · rintro ⟨hen, hnd, hfar, hint, hnc, hsp⟩
    exact resolveOne_damage freeplay sab pvs uv dt st i hi hen hnd hfar hint hnc hsp
  · intro hd
    exact resolveOne_skip_dying freeplay sab pvs uv dt st i hd
  · intro hcol
    exact resolveOne_latched freeplay sab pvs uv dt st i hi hcol

/-- Witness for C3 at the spec scenario with contact speed exactly equal to
the threshold (`|vpn − vbn| = 1000 = DAMAGE_SPEED`): the one-health ball is
damaged to health 0, transitions to dying, and the score becomes 1. -/
theorem step_damage_rule_witness :
    ((resolveOne false damageSaber [⟨100, 100⟩, ⟨100, 100⟩, ⟨100, 0⟩, ⟨100, 0⟩]
        ⟨0, -1⟩ (1 / 60) damageState 0).balls.getD 0 dBall).health = 0 ∧
    ((resolveOne false damageSaber [⟨100, 100⟩, ⟨100, 100⟩, ⟨100, 0⟩, ⟨100, 0⟩]
        ⟨0, -1⟩ (1 / 60) damageState 0).balls.getD 0 dBall).dying = true ∧
    (resolveOne false damageSaber [⟨100, 100⟩, ⟨100, 100⟩, ⟨100, 0⟩, ⟨100, 0⟩]
        ⟨0, -1⟩ (1 / 60) damageState 0).score = 1 := by
  have hb : damageState.balls.getD 0 dBall = damageBall := rfl
  have hfar : ¬ (damageSaber.pos.subtract (damageState.balls.getD 0 dBall).pos).length
      < 2 * RADIUS := by
    rw [hb]
    have hsub : damageSaber.pos.subtract damageBall.pos = ⟨0, 50⟩ := by
      unfold damageSaber damageBall
      simp [Vec2.subtract]
      norm_num
    rw [hsub, length_eval (c := 50) (by norm_num) (by norm_num)]
    unfold RADIUS
    norm_num
  have hswept : damageBall.computeSweptRegion (1 / 60) = [⟨100, 50⟩, ⟨100, 45⟩] := by
    unfold Ball.computeSweptRegion damageBall
    simp [Vec2.add, Vec2.scale]
    norm_num
  have hint : quadSegmentIntersect [⟨100, 100⟩, ⟨100, 100⟩, ⟨100, 0⟩, ⟨100, 0⟩]
      ((damageState.balls.getD 0 dBall).computeSweptRegion (1 / 60))
      (damageState.balls.getD 0 dBall).radius = true := by
    rw [hb, hswept]
    exact qsi_scenario_true
  have hnorm : contactNormal ⟨0, -1⟩ damageSaber.pos (damageState.balls.getD 0 dBall).pos
      = ⟨-1, 0⟩ := by
    rw [hb]
    unfold contactNormal damageSaber damageBall
    rw [if_neg]
    · simp [Vec2.orth]
    · simp [Vec2.subtract, Vec2.orth, Vec2.dot]
  have hsp : |(contactNormal ⟨0, -1⟩ damageSaber.pos (damageState.balls.getD 0 dBall).pos).dot
      (computeVelocityAlongSaber damageSaber.vel damageSaber.angle damageSaber.angVel
        (((damageState.balls.getD 0 dBall).pos.subtract damageSaber.pos).dot ⟨0, -1⟩)) -
    (contactNormal ⟨0, -1⟩ damageSaber.pos (damageState.balls.getD 0 dBall).pos).dot
      (damageState.balls.getD 0 dBall).vel| ≥ DAMAGE_SPEED := by
    rw [hb] at *
    rw [hnorm]
    have hdist : (damageBall.pos.subtract damageSaber.pos).dot ⟨0, -1⟩ = 50 := by
      unfold damageSaber damageBall
      simp [Vec2.subtract, Vec2.dot]
      norm_num
    rw [hdist]
    have hvp : computeVelocityAlongSaber damageSaber.vel damageSaber.angle
        damageSaber.angVel 50 = ⟨-1000, 0⟩ := by
      unfold computeVelocityAlongSaber damageSaber
      simp [Vec2.add, Vec2.scale, Real.sin_zero, Real.cos_zero]
      norm_num
    rw [hvp]
    unfold damageBall DAMAGE_SPEED
    simp [Vec2.dot]
  have H := (step_damage_rule false damageSaber [⟨100, 100⟩, ⟨100, 100⟩, ⟨100, 0⟩, ⟨100, 0⟩]
      ⟨0, -1⟩ (1 / 60) damageState 0 (by simp [damageState])).1
    ⟨rfl, rfl, hfar, hint, rfl, hsp⟩
  refine ⟨?_, (H.2 rfl).1, (H.2 rfl).2⟩
  rw [H.1, hb]
  rfl

/-!  ## C9 — the health invariant of every reachable game state -/

lemma ballInv_dBall : ballInv dBall := by
  unfold ballInv dBall
  norm_num

lemma ballInv_respawn (b : Ball) (u : ℕ → ℝ) (k : ℕ) : ballInv (b.respawn u k).1 := by
  unfold ballInv Ball.respawn
  norm_num

lemma ballInv_collideBumpers (b : Ball) (l : List Bumper) (h : ballInv b) :
    ballInv (collideBumpers b l) := by
  induction l with
  | nil => exact h
  | cons bp rest ih =>
    unfold collideBumpers
    dsimp only
    split_ifs
    · exact h
    · exact h
    · exact ih

lemma ballInv_collide (b : Ball) (bumpers : List Bumper) (u : ℕ → ℝ) (k : ℕ)
    (h : ballInv b) : ballInv (b.collide bumpers u k).1 := by
  unfold Ball.collide
  dsimp only
  split_ifs <;>
    first
      | exact h
      | exact ballInv_collideBumpers b bumpers h
      | exact ballInv_respawn _ u k

lemma ballInv_updateVelocity (b : Ball) (dt : ℝ) (h : ballInv b) :
    ballInv (b.updateVelocity dt) := by
  unfold Ball.updateVelocity
  dsimp only
  split_ifs <;> exact h

lemma ballInv_updatePosition (b : Ball) (dt : ℝ) (u : ℕ → ℝ) (k : ℕ)
    (h : ballInv b) : ballInv (b.updatePosition dt u k).1 := by
  unfold Ball.updatePosition
  dsimp only
  split_ifs with h1 h2 h3 <;>
    first
      | exact h
      | exact ballInv_respawn { b with dyingTime := b.dyingTime + dt } u k

lemma ballsPhase2_inv (bumpers : List Bumper) (dt : ℝ) (u : ℕ → ℝ)
    (l : List Ball) (k : ℕ) (h : ∀ b ∈ l, ballInv b) :
    ∀ b ∈ (ballsPhase2 bumpers dt u l k).1, ballInv b := by
  induction l generalizing k with
  | nil =>
    intro b hb
    simp [ballsPhase2] at hb
  | cons hd rest ih =>
    intro b hb
    unfold ballsPhase2 at hb
    dsimp only at hb
    rcases List.mem_cons.mp hb with hb | hb
    · subst hb
      exact ballInv_updateVelocity _ dt (ballInv_collide hd bumpers u k (h hd (by simp)))
    · exact ih _ (fun x hx => h x (by simp [hx])) b hb

lemma ballsPhase5_inv (dt : ℝ) (u : ℕ → ℝ) (l : List Ball) (k : ℕ)
    (h : ∀ b ∈ l, ballInv b) :
    ∀ b ∈ (ballsPhase5 dt u l k).1, ballInv b := by
  induction l generalizing k with
  | nil =>
    intro b hb
    simp [ballsPhase5] at hb
  | cons hd rest ih =>
    intro b hb
    unfold ballsPhase5 at hb
    dsimp only at hb
    rcases List.mem_cons.mp hb with hb | hb
    · subst hb
      exact ballInv_updatePosition hd dt u k (h hd (by simp))
    · exact ih _ (fun x hx => h x (by simp [hx])) b hb

lemma inv_set (l : List Ball) (i : ℕ) (b1 : Ball) (hinv : ∀ x ∈ l, ballInv x)
    (hb1 : ballInv b1) : ∀ x ∈ l.set i b1, ballInv x := fun x hx =>
  (List.mem_or_eq_of_mem_set hx).elim (hinv x) (fun he => he ▸ hb1)

lemma inv_enable (l : List Ball) (j : ℕ) (hinv : ∀ x ∈ l, ballInv x) :
    ∀ x ∈ l.set j { l.getD j dBall with enabled := true }, ballInv x := by
  refine inv_set l j _ hinv ?_
  have hj : ballInv (l.getD j dBall) := by
    by_cases h : j < l.length
    · exact hinv _ (by rw [List.getD_eq_getElem _ _ h]; exact List.getElem_mem h)
    · rw [List.getD_eq_default _ _ (by omega)]
      exact ballInv_dBall
  exact ⟨hj.1, hj.2.1, hj.2.2⟩

lemma resolveOne_inv (freeplay : Bool) (sab : Saber) (pvs : List Vec2) (uv : Vec2)
    (dt : ℝ) (st : ResState) (i : ℕ)
    (hinv : ∀ x ∈ st.balls, ballInv x) :
    ∀ x ∈ (resolveOne freeplay sab pvs uv dt st i).balls, ballInv x := by
  intro b' hb'
  by_cases hC1 : ¬ (st.balls.getD i dBall).enabled = true ∨ (st.balls.getD i dBall).dying = true
  · unfold resolveOne at hb'
    dsimp only at hb'
    rw [if_pos hC1] at hb'
    exact hinv b' hb'
  · have hen : (st.balls.getD i dBall).enabled = true := by
      by_contra h
      exact hC1 (Or.inl h)
    have hnd : ¬ (st.balls.getD i dBall).dying = true := fun h => hC1 (Or.inr h)
    have hib : i < st.balls.length := by
      by_contra hno
      rw [List.getD_eq_default _ _ (by omega)] at hen
      simp [dBall] at hen
    have hmem : st.balls.getD i dBall ∈ st.balls := by
      rw [List.getD_eq_getElem _ _ hib]
      exact List.getElem_mem hib
    have hbinv := hinv _ hmem
    have hone : 1 ≤ (st.balls.getD i dBall).health := by
      rcases hbinv with ⟨h0, h3, hz⟩
      by_contra hlt
      exact hnd (hz (by omega))
    obtain ⟨hb0, hb3, hbz⟩ := hbinv
    unfold resolveOne at hb'
    dsimp only at hb'
    rw [if_neg hC1] at hb'
    have hd1 : ballInv { st.balls.getD i dBall with
        health := (st.balls.getD i dBall).health - 1, dying := true } := by
      refine ⟨?_, ?_, fun _ => rfl⟩ <;> dsimp <;> omega
    by_cases hC4 : ¬ (st.balls.getD i dBall).inCollision = true ∧
        |(contactNormal uv sab.pos (st.balls.getD i dBall).pos).dot
            (computeVelocityAlongSaber sab.vel sab.angle sab.angVel
              (((st.balls.getD i dBall).pos.subtract sab.pos).dot uv)) -
          (contactNormal uv sab.pos (st.balls.getD i dBall).pos).dot
            (st.balls.getD i dBall).vel| ≥ DAMAGE_SPEED ∧
        (st.balls.getD i dBall).health - 1 ≤ 0
    · rw [if_pos hC4] at hb'
      split_ifs at hb' <;>
        first
          | exact hinv b' hb'
          | (refine inv_enable _ _ (inv_set _ _ _ hinv ?_) b' hb'; exact hd1)
          | (refine inv_set _ _ _ hinv ?_ b' hb'; exact hd1)
          | (refine inv_set _ _ _ hinv ?_ b' hb'; exact ⟨hb0, hb3, hbz⟩)
    · rw [if_neg hC4] at hb'
      by_cases hC5 : ¬ (st.balls.getD i dBall).inCollision = true ∧
          |(contactNormal uv sab.pos (st.balls.getD i dBall).pos).dot
              (computeVelocityAlongSaber sab.vel sab.angle sab.angVel
                (((st.balls.getD i dBall).pos.subtract sab.pos).dot uv)) -
            (contactNormal uv sab.pos (st.balls.getD i dBall).pos).dot
              (st.balls.getD i dBall).vel| ≥ DAMAGE_SPEED
      · have hgt : ¬ ((st.balls.getD i dBall).health - 1 ≤ 0) :=
          fun hle => hC4 ⟨hC5.1, hC5.2, hle⟩
        have hd2 : ballInv { st.balls.getD i dBall with
            health := (st.balls.getD i dBall).health - 1 } := by
          refine ⟨?_, ?_, ?_⟩
          · dsimp
            omega
          · dsimp
            omega
          · intro h0
            dsimp at h0 ⊢
            exact absurd (le_of_eq h0) hgt
        rw [if_pos hC5] at hb'
        split_ifs at hb' <;>
          first
            | exact hinv b' hb'
            | (refine inv_set _ _ _ hinv ?_ b' hb'; exact hd2)
            | (refine inv_set _ _ _ hinv ?_ b' hb'; exact ⟨hb0, hb3, hbz⟩)
      · rw [if_neg hC5] at hb'
        split_ifs at hb' <;>
          first
            | exact hinv b' hb'
            | (refine inv_set _ _ _ hinv ?_ b' hb'; exact ⟨hb0, hb3, hbz⟩)

lemma foldl_resolveOne_inv (freeplay : Bool) (sab : Saber) (pvs : List Vec2) (uv : Vec2)
    (dt : ℝ) (l : List ℕ) (st : ResState)
    (hinv : ∀ x ∈ st.balls, ballInv x) :
    ∀ x ∈ (l.foldl (resolveOne freeplay sab pvs uv dt) st).balls, ballInv x := by
  induction l generalizing st with
  | nil => exact hinv
  | cons j rest ih =>
    exact ih _ (resolveOne_inv freeplay sab pvs uv dt st j hinv)

lemma step_inv (g : GameState) (target : Vec2) (dt : ℝ) (u : ℕ → ℝ) (k : ℕ)
    (hinv : ∀ x ∈ g.balls, ballInv x) :
    ∀ x ∈ (Game.step g target dt u k).1.balls, ballInv x := by
  unfold Game.step
  dsimp only
  split_ifs with h1
  · exact hinv
  · intro x hx
    refine ballsPhase5_inv dt u _ _ ?_ x hx
    exact foldl_resolveOne_inv _ _ _ _ dt _ _ (ballsPhase2_inv g.bumpers dt u g.balls k hinv)

lemma mkBall_inv (radius xMax yMax : ℝ) (u : ℕ → ℝ) (k : ℕ) :
    ballInv (mkBall radius xMax yMax u k).1 := by
  unfold mkBall
  dsimp only
  have h := ballInv_respawn
    { radius := radius, xMax := xMax, yMax := yMax,
      screenCenter := ⟨xMax / 2, yMax / 2⟩, enabled := true,
      dying := false, dyingTime := 0, health := 3, inCollision := false,
      pos := Vec2.zero, lastPos := Vec2.zero, vel := Vec2.zero } u k
  exact ⟨h.1, h.2.1, h.2.2⟩

lemma mkBalls_inv (width height : ℝ) (numBalls : ℕ) (u : ℕ → ℝ) (n i k : ℕ) :
    ∀ x ∈ (mkBalls width height numBalls u n i k).1, ballInv x := by
  induction n generalizing i k with
  | zero =>
    intro x hx
    simp [mkBalls] at hx
  | succ n ih =>
    intro x hx
    unfold mkBalls at hx
    dsimp only at hx
    rcases List.mem_cons.mp hx with hx | hx
    · subst hx
      split_ifs with hdis
      · have h := mkBall_inv RADIUS width height u (k + 2)
        exact ⟨h.1, h.2.1, h.2.2⟩
      · exact mkBall_inv RADIUS width height u (k + 2)
    · exact ih _ _ x hx

lemma initGame_inv (width height : ℝ) (u : ℕ → ℝ) (k : ℕ) :
    ∀ x ∈ (initGame width height u k).1.balls, ballInv x := by
  intro x hx
  exact mkBalls_inv width height 1 u MAX_NUM_BALLS 0 k x hx

/-- C9: in every reachable game state — from construction through any
sequence of steps with any targets, time steps and random draws — every
ball's health lies between 0 and 3, and a health of 0 occurs only on a ball
whose dying flag is set (so every non-dying ball has health ≥ 1). -/
theorem ball_health_invariant (g : GameState) (hg : Reachable g) (b : Ball)
    (hb : b ∈ g.balls) :
    0 ≤ b.health ∧ b.health ≤ 3 ∧ (b.health = 0 → b.dying = true) := by
  induction hg generalizing b with
  | init width height u k =>
    exact initGame_inv width height u k b hb
  | step g' target dt u k hg' ih =>
    exact step_inv g' target dt u k (fun x hx => ih x hx) b hb

lemma mkBalls_length (width height : ℝ) (numBalls : ℕ) (u : ℕ → ℝ) (n i k : ℕ) :
    (mkBalls width height numBalls u n i k).1.length = n := by
  induction n generalizing i k with
  | zero => simp [mkBalls]
  | succ n ih =>
    unfold mkBalls
    dsimp only
    rw [List.length_cons, ih]

/-- Witness for C9: the first ball of a freshly constructed 600 × 600 game
satisfies the health invariant. -/
theorem ball_health_invariant_witness :
    0 ≤ ((initGame 600 600 (fun _ => 0) 0).1.balls.getD 0 dBall).health ∧
    ((initGame 600 600 (fun _ => 0) 0).1.balls.getD 0 dBall).health ≤ 3 ∧
    (((initGame 600 600 (fun _ => 0) 0).1.balls.getD 0 dBall).health = 0 →
      ((initGame 600 600 (fun _ => 0) 0).1.balls.getD 0 dBall).dying = true) := by
  have hlen : (initGame 600 600 (fun _ => 0) 0).1.balls.length = 10 :=
    mkBalls_length 600 600 1 (fun _ => 0) MAX_NUM_BALLS 0 0
  have hlt : 0 < (initGame 600 600 (fun _ => 0) 0).1.balls.length := by
    rw [hlen]
    norm_num
  refine ball_health_invariant (initGame 600 600 (fun _ => 0) 0).1
    (Reachable.init 600 600 (fun _ => 0) 0) _ ?_
  rw [List.getD_eq_getElem _ _ hlt]
  exact List.getElem_mem hlt

end
